import Mathlib

/-!
Verification development for the ISMCTS-4tuple game engine.

The C++ game state (`GST`), its move generator, move application, undo,
terminal test, the N-tuple evaluator aggregation, the greedy-policy weight
bonuses, the MCTS/ISMCTS backpropagation updates, the UCB1 formula and the
ISMCTS rollout policy are embedded shallowly:

* C arrays become Lean `List`s read through `getD` (default 0) and written
  through `List.set`; all reads and writes relevant to the theorems happen
  at indices that are proved (or assumed, as reachability invariants) to be
  in bounds, where the two semantics agree with C array accesses.
* C `int` arithmetic becomes `Int`; `/` and `%` on possibly negative values
  become `Int.tdiv` / `Int.tmod`, which truncate toward zero exactly like C.
* Bit-packing of moves (`piece << 4 | dir`, `move |= eaten << 8`,
  `move |= 0x1000`, `move >> 12`, `move & 0xfff`, ...) is written with
  `*`, `+`, `/`, `%` on `Nat`; for the operand ranges produced by the move
  generator and `do_move` these coincide with the C shifts and masks.
* `exit(1)` (process abort) becomes `Option.none`.
* `double` values (node statistics, weights, epsilon) become `ℚ`, except the
  UCB1 value, which uses `ℝ`/`EReal` because of `sqrt`/`log`/infinity.
* The per-search random draws are passed in as explicit parameters.
-/

/-- Player id of the AI agent (`USER` in the source). -/
def USER : Nat := 0

/-- Player id of the opponent (`ENEMY` in the source). -/
def ENEMY : Nat := 1

/-- Read an `Int` array cell at a `Nat` index, 0 out of bounds. -/
def getN (l : List Int) (i : Nat) : Int := l.getD i 0

/-- Read an `Int` array cell at an `Int` index, 0 out of bounds. -/
def getI (l : List Int) (i : Int) : Int := l.getD i.toNat 0

/-- Append-if guard used to mirror `if (cond) move_arr[count++] = x;`. -/
def emit (c : Prop) [Decidable c] (x : Nat) : List Nat :=
  if c then [x] else []

theorem mem_emit {c : Prop} [Decidable c] {x m : Nat} :
    m ∈ emit c x ↔ c ∧ m = x := by
  unfold emit
  split <;> simp_all

theorem length_emit (c : Prop) [Decidable c] (x : Nat) :
    (emit c x).length ≤ 1 := by
  unfold emit
  split <;> simp

/-- `List.set` at the value already stored is the identity. -/
theorem set_getD_self {α : Type} (l : List α) (i : Nat) (d : α)
    (h : i < l.length) : l.set i (l.getD i d) = l := by
  induction l generalizing i with
  | nil => simp at h
  | cons a t ih =>
    cases i with
    | zero => simp [List.set, List.getD]
    | succ j =>
      simp only [List.set, List.getD, List.getElem?_cons_succ, List.length_cons] at *
      rw [List.cons.injEq]
      exact ⟨rfl, ih j (by omega)⟩

/-- Reading back the cell just written (in-bounds write). -/
theorem getD_set_self {α : Type} (l : List α) (i : Nat) (v d : α)
    (h : i < l.length) : (l.set i v).getD i d = v := by
  induction l generalizing i with
  | nil => simp at h
  | cons a t ih =>
    cases i with
    | zero => simp [List.set, List.getD]
    | succ j =>
      simp only [List.set, List.getD, List.getElem?_cons_succ, List.length_cons] at *
      exact ih j (by omega)

/-- Reading a cell other than the one written. -/
theorem getD_set_ne {α : Type} (l : List α) {i j : Nat} (hij : i ≠ j)
    (v d : α) : (l.set i v).getD j d = l.getD j d := by
  induction l generalizing i j with
  | nil => simp [List.set]
  | cons a t ih =>
    cases i with
    | zero =>
      cases j with
      | zero => exact absurd rfl hij
      | succ j' => simp [List.set, List.getD]
    | succ i' =>
      cases j with
      | zero => simp [List.set, List.getD]
      | succ j' =>
        simp only [List.set, List.getD, List.getElem?_cons_succ]
        exact ih (by omega)

/-- Game state, mirroring the `GST` class field-for-field
(`board`, `piece_board`, `pos`, `color`, `piece_nums`, `revealed`,
`nowTurn`, `winner`, `is_escape`, `history`, `n_plies`). -/
structure GST where
  board : List Int
  piece_board : List Int
  pos : List Int
  color : List Int
  piece_nums : List Int
  revealed : List Bool
  nowTurn : Nat
  winner : Int
  is_escape : Bool
  history : List Nat
  n_plies : Nat
  deriving DecidableEq

/-- Direction offsets `{N, W, E, S} = {-COL, -1, 1, COL}` with `COL = 6`. -/
def dirVal (d : Nat) : Int := [(-6 : Int), -1, 1, 6].getD d 0

/-- `check_win_move`: does moving from `location` in direction `dir`
walk through an exit corner? -/
def check_win_move (location : Int) (dir : Nat) : Bool :=
  if location = 0 ∨ location = 30 then decide (dir = 1)
  else if location = 5 ∨ location = 35 then decide (dir = 2)
  else false

/-- The escape-victory test at the top of `do_move`
(`abs(color[piece]) == BLUE && check_win_move(pos[piece], direction)`). -/
def escapeMove (s : GST) (move : Nat) : Bool :=
  (getN s.color (move / 16)).natAbs = 2 &&
    check_win_move (getN s.pos (move / 16)) (move % 16)

/-- `gen_move`: candidate moves of one piece standing on `location`.
The four orthogonal moves test the border and the destination's color sign;
the extra escape moves need a blue piece of the mover on its own exit cell.
A move is packed as `piece * 16 + dir` (`piece << 4 | dir` in the source). -/
def gen_move (s : GST) (piece : Nat) (location : Int) : List Nat :=
  let row := location.tdiv 6
  let col := location.tmod 6
  if s.nowTurn = USER then
    emit (row ≠ 0 ∧ getI s.board (location - 6) ≤ 0) (piece * 16) ++
    emit (row ≠ 5 ∧ getI s.board (location + 6) ≤ 0) (piece * 16 + 3) ++
    emit (col ≠ 0 ∧ getI s.board (location - 1) ≤ 0) (piece * 16 + 1) ++
    emit (col ≠ 5 ∧ getI s.board (location + 1) ≤ 0) (piece * 16 + 2) ++
    emit (getN s.color piece = 2 ∧ location = 0) (piece * 16 + 1) ++
    emit (getN s.color piece = 2 ∧ location = 5) (piece * 16 + 2)
  else
    emit (row ≠ 0 ∧ getI s.board (location - 6) ≥ 0) (piece * 16) ++
    emit (row ≠ 5 ∧ getI s.board (location + 6) ≥ 0) (piece * 16 + 3) ++
    emit (col ≠ 0 ∧ getI s.board (location - 1) ≥ 0) (piece * 16 + 1) ++
    emit (col ≠ 5 ∧ getI s.board (location + 1) ≥ 0) (piece * 16 + 2) ++
    emit (getN s.color piece = -2 ∧ location = 30) (piece * 16 + 1) ++
    emit (getN s.color piece = -2 ∧ location = 35) (piece * 16 + 2)

/-- `gen_all_move`: moves of every live piece of the side to move. -/
def gen_all_move (s : GST) : List Nat :=
  let offset := if s.nowTurn = ENEMY then 8 else 0
  (List.range 8).flatMap fun i =>
    if getN s.pos (i + offset) ≠ -1 then
      gen_move s (i + offset) (getN s.pos (i + offset))
    else []

/-- Capture handling of `do_move`: if the destination holds an opposing
piece, remove it, reveal it, decrement its count bucket (aborting on an
impossible color, as the source does with `exit(1)`), and record its id in
the move word (`move |= piece_board[dst] << 8`); an empty destination sets
the no-capture flag (`move |= 0x1000`). -/
def capture_step (s : GST) (dst : Int) (move : Nat) : Option (GST × Nat) :=
  if getI s.board dst < 0 then
    let eaten := (getI s.piece_board dst).toNat
    let base := { s with pos := s.pos.set eaten (-1),
                         revealed := s.revealed.set eaten true }
    if getN s.color eaten = -1 then
      some ({ base with
        piece_nums := s.piece_nums.set 2 (getN s.piece_nums 2 - 1) },
        move + 256 * eaten)
    else if getN s.color eaten = -2 then
      some ({ base with
        piece_nums := s.piece_nums.set 3 (getN s.piece_nums 3 - 1) },
        move + 256 * eaten)
    else if getN s.color eaten = -3 then
      some (base, move + 256 * eaten)
    else none
  else if getI s.board dst > 0 then
    let eaten := (getI s.piece_board dst).toNat
    let base := { s with pos := s.pos.set eaten (-1),
                         revealed := s.revealed.set eaten true }
    if getN s.color eaten = 1 then
      some ({ base with
        piece_nums := s.piece_nums.set 0 (getN s.piece_nums 0 - 1) },
        move + 256 * eaten)
    else if getN s.color eaten = 2 then
      some ({ base with
        piece_nums := s.piece_nums.set 1 (getN s.piece_nums 1 - 1) },
        move + 256 * eaten)
    else if getN s.color eaten = 3 then
      some (base, move + 256 * eaten)
    else none
  else
    some (s, move + 4096)

/-- Board/identity/position/history updates at the end of `do_move`. -/
def move_piece (s1 : GST) (piece : Nat) (dst : Int) (move1 : Nat) : GST :=
  { s1 with
    board := (s1.board.set (getN s1.pos piece).toNat 0).set dst.toNat
      (getN s1.color piece),
    piece_board := (s1.piece_board.set (getN s1.pos piece).toNat (-1)).set
      dst.toNat (piece : Int),
    pos := s1.pos.set piece dst,
    history := s1.history.set s1.n_plies move1,
    n_plies := s1.n_plies + 1,
    nowTurn := s1.nowTurn ^^^ 1 }

/-- `do_move`: escape wins short-circuit all board mutation; reaching the
ply capacity `MAX_PLIES = 1000` is fatal; otherwise resolve the capture and
move the piece. `none` models the source's `exit(1)`. -/
def do_move (s : GST) (move : Nat) : Option GST :=
  if escapeMove s move then
    some { s with winner := (s.nowTurn : Int), n_plies := s.n_plies + 1,
                  nowTurn := s.nowTurn ^^^ 1, is_escape := true }
  else if s.n_plies = 1000 then none
  else
    (capture_step s (getN s.pos (move / 16) + dirVal (move % 16)) move).map
      fun x => move_piece x.1 (move / 16)
        (getN s.pos (move / 16) + dirVal (move % 16)) x.2

/-- Capture reversal in `undo`: put the eaten piece back on the mover's
current cell and re-increment its bucket, aborting on an impossible color
for the (restored) side to move. -/
def restore_eaten (s1 : GST) (piece eaten : Nat) : Option GST :=
  let cur := getN s1.pos piece
  let base := { s1 with
    board := s1.board.set cur.toNat (getN s1.color eaten),
    piece_board := s1.piece_board.set cur.toNat (eaten : Int),
    pos := s1.pos.set eaten cur }
  if s1.nowTurn = USER then
    if getN s1.color eaten = -1 then
      some { base with
        piece_nums := s1.piece_nums.set 2 (getN s1.piece_nums 2 + 1) }
    else if getN s1.color eaten = -2 then
      some { base with
        piece_nums := s1.piece_nums.set 3 (getN s1.piece_nums 3 + 1) }
    else if getN s1.color eaten = -3 then some base
    else none
  else
    if getN s1.color eaten = 1 then
      some { base with
        piece_nums := s1.piece_nums.set 0 (getN s1.piece_nums 0 + 1) }
    else if getN s1.color eaten = 2 then
      some { base with
        piece_nums := s1.piece_nums.set 1 (getN s1.piece_nums 1 + 1) }
    else if getN s1.color eaten = 3 then some base
    else none

/-- `undo`: clear any winner, fail on empty history (`exit(1)` → `none`),
toggle the mover back and pop the move word.  After an escape-win only the
escape flag is cleared (the board was never mutated).  Otherwise the move
word's fields drive the exact inverse of `do_move`.  The source resets
`winner` before the empty-history check, but aborts in that case anyway, so
folding the reset into the non-empty branch is observationally equal. -/
def undo (s : GST) : Option GST :=
  if s.n_plies = 0 then none
  else
    let s1 : GST := { s with winner := -1, nowTurn := s.nowTurn ^^^ 1,
                             n_plies := s.n_plies - 1 }
    let move := s.history.getD (s.n_plies - 1) 0
    let eaten := move % 4096 / 256
    let piece := move % 256 / 16
    let direction := move % 16
    let src := getN s1.pos piece - dirVal direction
    if s1.is_escape then some { s1 with is_escape := false }
    else
      (if move / 4096 ≠ 1 then restore_eaten s1 piece eaten
       else
         some { s1 with
           board := s1.board.set (getN s1.pos piece).toNat 0,
           piece_board := s1.piece_board.set (getN s1.pos piece).toNat (-1) }).map
        fun s2 =>
          { s2 with
            board := s2.board.set src.toNat (getN s2.color piece),
            piece_board := s2.piece_board.set src.toNat (piece : Int),
            pos := s2.pos.set piece src }

/-- `is_over`: the 200-ply cap forces a draw (`winner = -2`) before any
other test; then a previously set winner; then the four count buckets. The
bool is the return value, the state carries the written `winner`. -/
def is_over (s : GST) : Bool × GST :=
  if 200 ≤ s.n_plies then (true, { s with winner := -2 })
  else if s.winner ≠ -1 then (true, s)
  else if getN s.piece_nums 0 = 0 ∨ getN s.piece_nums 3 = 0 then
    (true, { s with winner := (USER : Int) })
  else if getN s.piece_nums 1 = 0 ∨ getN s.piece_nums 2 = 0 then
    (true, { s with winner := (ENEMY : Int) })
  else (false, s)

/-- The three 4-tuple pattern shapes (distinguished in the source by
comparing the offset-array pointer against `offset_1x4` / `offset_2x2` /
`offset_4x1`). -/
inductive Shape where
  | s1x4 : Shape
  | s2x2 : Shape
  | s4x1 : Shape
  deriving DecidableEq

/-- The cell offsets of each shape. -/
def offsets : Shape → List Nat
  | .s1x4 => [0, 1, 2, 3]
  | .s2x2 => [0, 1, 6, 7]
  | .s4x1 => [0, 6, 12, 18]

/-- `is_valid_pattern`: does the whole pattern instance fit on the board? -/
def is_valid_pattern (base_pos : Nat) (sh : Shape) : Bool :=
  let base_row := base_pos / 6
  let base_col := base_pos % 6
  match sh with
  | .s1x4 => if base_col > 2 then false else true
  | .s2x2 => if base_col > 4 ∨ base_row > 4 then false else true
  | .s4x1 => if base_row > 2 then false else true

/-- `get_loc`: base-36 positional packing of the four pattern cells. -/
def get_loc (base_pos : Nat) (sh : Shape) : Nat :=
  (base_pos + (offsets sh).getD 0 0) * (36 * 36 * 36) +
  (base_pos + (offsets sh).getD 1 0) * (36 * 36) +
  (base_pos + (offsets sh).getD 2 0) * 36 +
  (base_pos + (offsets sh).getD 3 0)

/-- `get_feature_unknown`: base-4 packing of the four cached cell codes. -/
def get_feature_unknown (base_pos : Nat) (sh : Shape) (cache : Nat → Int) :
    Int :=
  cache (base_pos + (offsets sh).getD 0 0) * 64 +
  cache (base_pos + (offsets sh).getD 1 0) * 16 +
  cache (base_pos + (offsets sh).getD 2 0) * 4 +
  cache (base_pos + (offsets sh).getD 3 0)

/-- The read-only weight store: the `trans` location table and the six
win-rate lookup tables of the `DATA` class, abstracted as functions. -/
structure DATA where
  trans : Nat → Int
  LUTwr_U : Int → ℚ
  LUTwr_E : Int → ℚ
  LUTwr_U_R1 : Int → ℚ
  LUTwr_U_B1 : Int → ℚ
  LUTwr_E_R1 : Int → ℚ
  LUTwr_E_B1 : Int → ℚ

/-- `DATA::LUT_idx(location, feature) = (location - 1) * FEATURE_NUM + feature`. -/
def LUT_idx (location feature : Int) : Int := (location - 1) * 256 + feature

/-- The per-cell feature cache computed once per evaluation
(opposing pieces are masked to the unknown code 3, and codes are taken
from the mover's point of view). -/
def feature_cache (s : GST) (p : Nat) : Int :=
  if s.nowTurn = USER then
    if getN s.board p < 0 then 3 else getN s.board p
  else
    if getN s.board p > 0 then 3 else -getN s.board p

/-- `get_weight`: look up one pattern instance's weight, choosing the table
by the side to move and the two one-piece-remaining endgame scenarios. -/
def get_weight (s : GST) (base_pos : Nat) (sh : Shape) (d : DATA)
    (cache : Nat → Int) : ℚ :=
  let feature := get_feature_unknown base_pos sh cache
  let LUTidx := LUT_idx (d.trans (get_loc base_pos sh)) feature
  if s.nowTurn = USER then
    if getN s.piece_nums 2 = 1 then d.LUTwr_U_R1 LUTidx
    else if getN s.piece_nums 1 = 1 then d.LUTwr_U_B1 LUTidx
    else d.LUTwr_U LUTidx
  else
    if getN s.piece_nums 0 = 1 then d.LUTwr_E_R1 LUTidx
    else if getN s.piece_nums 3 = 1 then d.LUTwr_E_B1 LUTidx
    else d.LUTwr_E LUTidx

/-- `compute_board_weight`: one pass over the 36 base cells adding each
valid instance of the three shapes (in the source's order 1x4, 4x1, 2x2),
divided by `TUPLE_NUM = 61`. -/
def compute_board_weight (s : GST) (d : DATA) : ℚ :=
  (∑ p ∈ Finset.range 36,
    ((if is_valid_pattern p .s1x4 then get_weight s p .s1x4 d (feature_cache s) else 0) +
     (if is_valid_pattern p .s4x1 then get_weight s p .s4x1 d (feature_cache s) else 0) +
     (if is_valid_pattern p .s2x2 then get_weight s p .s2x2 d (feature_cache s) else 0))) / 61

/-- The all-zero weight store. -/
def zeroDATA : DATA :=
  ⟨fun _ => 0, fun _ => 0, fun _ => 0, fun _ => 0, fun _ => 0, fun _ => 0,
   fun _ => 0⟩

/-- The pattern instances the evaluator actually sums over. -/
def validPatterns : Finset (Nat × Shape) :=
  (Finset.range 36 ×ˢ ({Shape.s1x4, Shape.s2x2, Shape.s4x1} : Finset Shape)).filter
    fun x => is_valid_pattern x.1 x.2

/-- The corner-distance / endgame weight adjustment applied to each
candidate move at the end of `highest_weight`: `corner_bonus` is 1.01 when
the piece has an assigned corner and the destination is strictly closer to
it, and a further 1.01 factor applies when `piece_nums[2] <= 1` and the
destination cell is empty. -/
def corner_bonus (assigned : Int) (src dst : Int) : ℚ :=
  let row := dst.tdiv 6
  let col := dst.tmod 6
  let d0 := row + col
  let d5 := row + (5 - col)
  let d30 := (5 - row) + col
  let d35 := (5 - row) + (5 - col)
  let p_row := src.tdiv 6
  let p_col := src.tmod 6
  if assigned ≠ -1 then
    if assigned = 0 then (if d0 < p_row + p_col then 1.01 else 1)
    else if assigned = 1 then (if d5 < p_row + (5 - p_col) then 1.01 else 1)
    else if assigned = 2 then (if d30 < (5 - p_row) + p_col then 1.01 else 1)
    else if assigned = 3 then
      (if d35 < (5 - p_row) + (5 - p_col) then 1.01 else 1)
    else 1
  else 1

/-- `WEIGHT[m] *= corner_bonus; if (piece_nums[2] <= 1 && board[dst] == 0)
WEIGHT[m] *= 1.01;` applied to a candidate move's evaluated weight `w`. -/
def weight_bonus (s : GST) (assigned : Int) (src dst : Int) (w : ℚ) : ℚ :=
  let w1 := w * corner_bonus assigned src dst
  if getN s.piece_nums 2 ≤ 1 ∧ getI s.board dst = 0 then w1 * 1.01 else w1

/-- Spec-side reading: the exit corner cell of corner id `c`. -/
def specCorner (c : Int) : Int :=
  if c = 0 then 0 else if c = 1 then 5 else if c = 2 then 30 else 35

/-- Spec-side reading: Manhattan distance between two board cells
(row distance plus column distance; cells are nonnegative, so Euclidean
division coincides with the C row/column computation). -/
def specManhattan (a b : Int) : Int :=
  ((a / 6 - b / 6).natAbs : Int) + ((a % 6 - b % 6).natAbs : Int)

/-- `MCTS::backpropagation` along the node path from the simulated node up
to the root: each node gains one visit and the running result, and the
result is negated at every step (`result = -result`). A node is its
`(wins, visits)` pair. -/
def mctsBackprop : List (ℚ × Int) → Int → List (ℚ × Int)
  | [], _ => []
  | (w, v) :: rest, result =>
    (w + (result : ℚ), v + 1) :: mctsBackprop rest (-result)

/-- `ISMCTS::backpropagation`: each node on the path gains one visit and
the unchanged root-relative result. -/
def ismctsBackprop : List (ℚ × Int) → ℚ → List (ℚ × Int)
  | [], _ => []
  | (w, v) :: rest, result => (w + result, v + 1) :: ismctsBackprop rest result

/-- `EXPLORATION_PARAM`, the UCB exploration constant of `gst.hpp`
(`constexpr double EXPLORATION_PARAM = 1.414`). -/
noncomputable def EXPLORATION_PARAM : ℝ := 1.414

/-- `MCTS::calculateUCB`: infinity on an unvisited node, otherwise
`wins / visits + EXPLORATION_PARAM * sqrt(log(parent->visits) / visits)`. -/
noncomputable def calculateUCB (wins : ℚ) (visits parentVisits : Int) : EReal :=
  if visits = 0 then ⊤
  else (((wins / visits : ℚ) +
    EXPLORATION_PARAM * Real.sqrt (Real.log parentVisits / visits) : ℝ) : EReal)

/-- The decaying exploration rate of `ISMCTS::simulation`:
`std::max(0.1, 1.0 - step / maxMoves)` with `maxMoves = 200`. -/
def simEpsilon (step : Nat) : ℚ := max 0.1 (1 - (step : ℚ) / 200)

/-- One move choice of the rollout loop of `ISMCTS::simulation`: the side
`USER` draws `u` and plays the uniformly random candidate below epsilon and
the greedy `highest_weight` move otherwise; any other side always plays the
random candidate. `u` is the `probDist(rng)` draw, `randomMove` the
`moves[pick(rng)]` draw and `greedyMove` the `highest_weight(d)` result. -/
def simPolicy (nowTurn : Nat) (u : ℚ) (randomMove greedyMove : Nat)
    (step : Nat) : Nat :=
  if nowTurn = USER then
    if u < simEpsilon step then randomMove else greedyMove
  else randomMove

/-- Spec-side reading of the rollout policy: the side captured as the
search-owning root player is the epsilon-greedy one. -/
def specSimPolicy (rootPlayer nowTurn : Nat) (u : ℚ)
    (randomMove greedyMove : Nat) (step : Nat) : Nat :=
  if nowTurn = rootPlayer then
    if u < simEpsilon step then randomMove else greedyMove
  else randomMove

/-- The reward resolution at the end of `ISMCTS::simulation`: 0 when the
200-step horizon ran out on a live game, otherwise +1 exactly when the
winner is the captured root player and -1 otherwise. -/
def simReward (isOver : Bool) (step : Nat) (winner rootPlayer : Int) : ℚ :=
  if ¬isOver ∧ 200 ≤ step then 0
  else if winner = rootPlayer then 1 else -1

theorem mem_ite_nil {c : Prop} [Decidable c] {l : List Nat} {m : Nat} :
    m ∈ (if c then l else []) ↔ c ∧ m ∈ l := by
  split <;> simp_all

/-- Membership characterization of `gen_move` on the user's turn. -/
theorem mem_gen_move_user {s : GST} {p : Nat} {loc : Int} {m : Nat}
    (h : s.nowTurn = 0) :
    m ∈ gen_move s p loc ↔
      (loc.tdiv 6 ≠ 0 ∧ getI s.board (loc - 6) ≤ 0 ∧ m = p * 16) ∨
      (loc.tdiv 6 ≠ 5 ∧ getI s.board (loc + 6) ≤ 0 ∧ m = p * 16 + 3) ∨
      (loc.tmod 6 ≠ 0 ∧ getI s.board (loc - 1) ≤ 0 ∧ m = p * 16 + 1) ∨
      (loc.tmod 6 ≠ 5 ∧ getI s.board (loc + 1) ≤ 0 ∧ m = p * 16 + 2) ∨
      (getN s.color p = 2 ∧ loc = 0 ∧ m = p * 16 + 1) ∨
      (getN s.color p = 2 ∧ loc = 5 ∧ m = p * 16 + 2) := by
  simp [gen_move, USER, h, mem_emit, List.mem_append, and_assoc]

/-- Membership characterization of `gen_move` on the enemy's turn. -/
theorem mem_gen_move_enemy {s : GST} {p : Nat} {loc : Int} {m : Nat}
    (h : s.nowTurn = 1) :
    m ∈ gen_move s p loc ↔
      (loc.tdiv 6 ≠ 0 ∧ 0 ≤ getI s.board (loc - 6) ∧ m = p * 16) ∨
      (loc.tdiv 6 ≠ 5 ∧ 0 ≤ getI s.board (loc + 6) ∧ m = p * 16 + 3) ∨
      (loc.tmod 6 ≠ 0 ∧ 0 ≤ getI s.board (loc - 1) ∧ m = p * 16 + 1) ∨
      (loc.tmod 6 ≠ 5 ∧ 0 ≤ getI s.board (loc + 1) ∧ m = p * 16 + 2) ∨
      (getN s.color p = -2 ∧ loc = 30 ∧ m = p * 16 + 1) ∨
      (getN s.color p = -2 ∧ loc = 35 ∧ m = p * 16 + 2) := by
  simp [gen_move, USER, h, mem_emit, List.mem_append, and_assoc]

/-- Membership characterization of `gen_all_move`. -/
theorem mem_gen_all_move {s : GST} {m : Nat} :
    m ∈ gen_all_move s ↔ ∃ i, i < 8 ∧
      getN s.pos (i + (if s.nowTurn = ENEMY then 8 else 0)) ≠ -1 ∧
      m ∈ gen_move s (i + (if s.nowTurn = ENEMY then 8 else 0))
          (getN s.pos (i + (if s.nowTurn = ENEMY then 8 else 0))) := by
  simp [gen_all_move, List.mem_flatMap, List.mem_range, mem_ite_nil,
    and_assoc]

/-- Reachability invariants of `GST` used as hypotheses: array sizes, a
binary `nowTurn`, side-consistent piece colors (including the masked
"unknown" codes `3` / `-3`), and mutual consistency of the `pos`,
`piece_board`, `board` and `color` arrays. -/
def WF (s : GST) : Prop :=
  s.board.length = 36 ∧ s.piece_board.length = 36 ∧ s.pos.length = 16 ∧
  s.color.length = 16 ∧ s.piece_nums.length = 4 ∧ s.revealed.length = 16 ∧
  s.history.length = 1000 ∧ s.nowTurn < 2 ∧
  (∀ p, p < 8 →
    getN s.color p = 1 ∨ getN s.color p = 2 ∨ getN s.color p = 3) ∧
  (∀ p, p < 16 → 8 ≤ p →
    getN s.color p = -1 ∨ getN s.color p = -2 ∨ getN s.color p = -3) ∧
  (∀ p, p < 16 → getN s.pos p = -1 ∨
    (0 ≤ getN s.pos p ∧ getN s.pos p < 36 ∧
     getI s.piece_board (getN s.pos p) = (p : Int) ∧
     getI s.board (getN s.pos p) = getN s.color p)) ∧
  (∀ j, j < 36 → (getN s.piece_board j = -1 ∧ getN s.board j = 0) ∨
    (0 ≤ getN s.piece_board j ∧ getN s.piece_board j < 16 ∧
     getN s.board j = getN s.color (getN s.piece_board j).toNat ∧
     getN s.pos (getN s.piece_board j).toNat = (j : Int)))

/-- The documented starting layout, with the four red pieces of each side
fixed to one of the assignments `init_board` can draw: user pieces 0-3 red,
4-7 blue on cells 25-28, 31-34; enemy pieces 8-11 red, 12-15 blue on cells
10,9,8,7 and 4,3,2,1. -/
def initState : GST :=
  { board :=
      [0, -2, -2, -2, -2, 0,
       0, -1, -1, -1, -1, 0,
       0, 0, 0, 0, 0, 0,
       0, 0, 0, 0, 0, 0,
       0, 1, 1, 1, 1, 0,
       0, 2, 2, 2, 2, 0],
    piece_board :=
      [-1, 15, 14, 13, 12, -1,
       -1, 11, 10, 9, 8, -1,
       -1, -1, -1, -1, -1, -1,
       -1, -1, -1, -1, -1, -1,
       -1, 0, 1, 2, 3, -1,
       -1, 4, 5, 6, 7, -1],
    pos := [25, 26, 27, 28, 31, 32, 33, 34, 10, 9, 8, 7, 4, 3, 2, 1],
    color := [1, 1, 1, 1, 2, 2, 2, 2, -1, -1, -1, -1, -2, -2, -2, -2],
    piece_nums := [4, 4, 4, 4],
    revealed := List.replicate 16 false,
    nowTurn := 0, winner := -1, is_escape := false,
    history := List.replicate 1000 0, n_plies := 0 }

/-- A mid-game position (user piece 0 advanced 25 → 19 → 13) in which the
user's move `piece 0, Up` captures the unrevealed enemy piece 11 on cell 7. -/
def captureState : GST :=
  { board :=
      [0, -2, -2, -2, -2, 0,
       0, -1, -1, -1, -1, 0,
       0, 1, 0, 0, 0, 0,
       0, 0, 0, 0, 0, 0,
       0, 0, 1, 1, 1, 0,
       0, 2, 2, 2, 2, 0],
    piece_board :=
      [-1, 15, 14, 13, 12, -1,
       -1, 11, 10, 9, 8, -1,
       -1, 0, -1, -1, -1, -1,
       -1, -1, -1, -1, -1, -1,
       -1, -1, 1, 2, 3, -1,
       -1, 4, 5, 6, 7, -1],
    pos := [13, 26, 27, 28, 31, 32, 33, 34, 10, 9, 8, 7, 4, 3, 2, 1],
    color := [1, 1, 1, 1, 2, 2, 2, 2, -1, -1, -1, -1, -2, -2, -2, -2],
    piece_nums := [4, 4, 4, 4],
    revealed := List.replicate 16 false,
    nowTurn := 0, winner := -1, is_escape := false,
    history := List.replicate 1000 0, n_plies := 4 }

/-- A position with the user's blue piece 4 standing on exit cell 0, so
that `piece 4, Left` is an escape-winning move. -/
def escapePre : GST :=
  { board :=
      [2, -2, -2, -2, -2, 0,
       0, -1, -1, -1, -1, 0,
       0, 0, 0, 0, 0, 0,
       0, 0, 0, 0, 0, 0,
       0, 1, 1, 1, 1, 0,
       0, 0, 2, 2, 2, 0],
    piece_board :=
      [4, 15, 14, 13, 12, -1,
       -1, 11, 10, 9, 8, -1,
       -1, -1, -1, -1, -1, -1,
       -1, -1, -1, -1, -1, -1,
       -1, 0, 1, 2, 3, -1,
       -1, -1, 5, 6, 7, -1],
    pos := [25, 26, 27, 28, 0, 32, 33, 34, 10, 9, 8, 7, 4, 3, 2, 1],
    color := [1, 1, 1, 1, 2, 2, 2, 2, -1, -1, -1, -1, -2, -2, -2, -2],
    piece_nums := [4, 4, 4, 4],
    revealed := List.replicate 16 false,
    nowTurn := 0, winner := -1, is_escape := false,
    history := List.replicate 1000 0, n_plies := 6 }

/-- A position at the 200-ply cap in which the user-red bucket
`piece_nums[0]` is simultaneously zero (all four user red pieces eaten). -/
def capAndBucketState : GST :=
  { board :=
      [0, -2, -2, -2, -2, 0,
       0, -1, -1, -1, -1, 0,
       0, 0, 0, 0, 0, 0,
       0, 0, 0, 0, 0, 0,
       0, 0, 0, 0, 0, 0,
       0, 2, 2, 2, 2, 0],
    piece_board :=
      [-1, 15, 14, 13, 12, -1,
       -1, 11, 10, 9, 8, -1,
       -1, -1, -1, -1, -1, -1,
       -1, -1, -1, -1, -1, -1,
       -1, -1, -1, -1, -1, -1,
       -1, 4, 5, 6, 7, -1],
    pos := [-1, -1, -1, -1, 31, 32, 33, 34, 10, 9, 8, 7, 4, 3, 2, 1],
    color := [1, 1, 1, 1, 2, 2, 2, 2, -1, -1, -1, -1, -2, -2, -2, -2],
    piece_nums := [0, 4, 4, 4],
    revealed := [true, true, true, true, false, false, false, false,
                 false, false, false, false, false, false, false, false],
    nowTurn := 0, winner := -1, is_escape := false,
    history := List.replicate 1000 0, n_plies := 200 }

/-- An enemy-to-move position in which the user (the enemy's opponent) is
down to exactly one red piece while the enemy-red bucket `piece_nums[2]`
still holds 4; enemy piece 8 on cell 10 can move down to the empty cell 16. -/
def enemyTurnState : GST :=
  { board :=
      [0, -2, -2, -2, -2, 0,
       0, -1, -1, -1, -1, 0,
       0, 0, 0, 0, 0, 0,
       0, 0, 0, 0, 0, 0,
       0, 1, 0, 0, 0, 0,
       0, 2, 2, 2, 2, 0],
    piece_board :=
      [-1, 15, 14, 13, 12, -1,
       -1, 11, 10, 9, 8, -1,
       -1, -1, -1, -1, -1, -1,
       -1, -1, -1, -1, -1, -1,
       -1, 0, -1, -1, -1, -1,
       -1, 4, 5, 6, 7, -1],
    pos := [25, -1, -1, -1, 31, 32, 33, 34, 10, 9, 8, 7, 4, 3, 2, 1],
    color := [1, 1, 1, 1, 2, 2, 2, 2, -1, -1, -1, -1, -2, -2, -2, -2],
    piece_nums := [1, 4, 4, 4],
    revealed := [false, true, true, true, false, false, false, false,
                 false, false, false, false, false, false, false, false],
    nowTurn := 1, winner := -1, is_escape := false,
    history := List.replicate 1000 0, n_plies := 6 }

instance WF.instDecidable (s : GST) : Decidable (WF s) := by
  unfold WF
  infer_instance

theorem check_win_move_dir0 (loc : Int) : check_win_move loc 0 = false := by
  unfold check_win_move
  split_ifs <;> simp

theorem check_win_move_dir3 (loc : Int) : check_win_move loc 3 = false := by
  unfold check_win_move
  split_ifs <;> simp

theorem check_win_move_dir1 (loc : Int) :
    check_win_move loc 1 = true ↔ (loc = 0 ∨ loc = 30) := by
  unfold check_win_move
  split_ifs <;> simp_all

theorem check_win_move_dir2 (loc : Int) :
    check_win_move loc 2 = true ↔ (loc = 5 ∨ loc = 35) := by
  unfold check_win_move
  split_ifs <;> simp_all
  omega

theorem emit_length (c : Prop) [Decidable c] (x : Nat) :
    (emit c x).length = if c then 1 else 0 := by
  unfold emit
  split <;> simp

set_option maxHeartbeats 1000000 in
/-- Each piece contributes at most 4 moves: the escape moves only arise on
corner cells, where the board edge already rules out two orthogonal moves. -/
theorem length_gen_move_le (s : GST) (p : Nat) (loc : Int) :
    (gen_move s p loc).length ≤ 4 := by
  unfold gen_move
  split
  · simp only [List.length_append, emit_length]
    by_cases h5 : getN s.color p = 2 ∧ loc = 0
    · obtain ⟨hc, rfl⟩ := h5
      rw [show Int.tdiv 0 6 = 0 from by decide,
        show Int.tmod 0 6 = 0 from by decide]
      split_ifs <;> omega
    · by_cases h6 : getN s.color p = 2 ∧ loc = 5
      · obtain ⟨hc, rfl⟩ := h6
        rw [show Int.tdiv 5 6 = 0 from by decide,
          show Int.tmod 5 6 = 5 from by decide]
        split_ifs <;> omega
      · rw [if_neg h5, if_neg h6]
        split_ifs <;> omega
  · simp only [List.length_append, emit_length]
    by_cases h5 : getN s.color p = -2 ∧ loc = 30
    · obtain ⟨hc, rfl⟩ := h5
      rw [show Int.tdiv 30 6 = 5 from by decide,
        show Int.tmod 30 6 = 0 from by decide]
      split_ifs <;> omega
    · by_cases h6 : getN s.color p = -2 ∧ loc = 35
      · obtain ⟨hc, rfl⟩ := h6
        rw [show Int.tdiv 35 6 = 5 from by decide,
          show Int.tmod 35 6 = 5 from by decide]
        split_ifs <;> omega
      · rw [if_neg h5, if_neg h6]
        split_ifs <;> omega

/-- C10: for every state, `gen_all_move` yields at most `MAX_MOVES = 32`
moves — each of the at most 8 live pieces of the mover contributes at most
4 entries — so the fixed 32-slot move buffers are never overrun. -/
theorem C10_move_bound (s : GST) : (gen_all_move s).length ≤ 32 := by
  unfold gen_all_move
  rw [List.length_flatMap]
  have h : ∀ x ∈ (List.range 8).map (fun i =>
      (if getN s.pos (i + (if s.nowTurn = ENEMY then 8 else 0)) ≠ -1 then
        gen_move s (i + (if s.nowTurn = ENEMY then 8 else 0))
          (getN s.pos (i + (if s.nowTurn = ENEMY then 8 else 0)))
      else []).length), x ≤ 4 := by
    intro x hx
    rw [List.mem_map] at hx
    obtain ⟨i, _, rfl⟩ := hx
    by_cases hp : getN s.pos (i + (if s.nowTurn = ENEMY then 8 else 0)) ≠ -1
    · rw [if_pos hp]
      exact length_gen_move_le ..
    · rw [if_neg hp]
      simp
  calc ((List.range 8).map _).sum ≤ ((List.range 8).map _).length • 4 :=
        List.sum_le_card_nsmul _ 4 h
    _ ≤ 32 := by simp

/-- C6: MCTS backpropagation adds, at the k-th node of the path from the
simulated node to the root, one visit and `(-1)^k` times the result (the
sign flips at every step up), whereas ISMCTS backpropagation adds one
visit and the same unflipped result at every node of the path. -/
theorem C6_backprop (path : List (ℚ × Int)) (r : Int) (rq : ℚ) (k : Nat)
    (hk : k < path.length) :
    (mctsBackprop path r).getD k (0, 0) =
      ((path.getD k (0, 0)).1 + (-1) ^ k * (r : ℚ),
       (path.getD k (0, 0)).2 + 1) ∧
    (ismctsBackprop path rq).getD k (0, 0) =
      ((path.getD k (0, 0)).1 + rq, (path.getD k (0, 0)).2 + 1) := by
  induction path generalizing k r with
  | nil => simp at hk
  | cons a rest ih =>
    obtain ⟨w, v⟩ := a
    cases k with
    | zero => simp [mctsBackprop, ismctsBackprop]
    | succ k' =>
      have h := ih (-r) k' (by simpa using hk)
      refine ⟨?_, ?_⟩
      · show (mctsBackprop rest (-r)).getD k' (0, 0) = _
        rw [h.1, List.getD_cons_succ]
        rw [Prod.mk.injEq]
        refine ⟨?_, rfl⟩
        push_cast
        ring
      · show (ismctsBackprop rest rq).getD k' (0, 0) = _
        rw [h.2, List.getD_cons_succ]

theorem C6_backprop_witness :
    (1 : Nat) < ([(0, 0), (0, 0)] : List (ℚ × Int)).length ∧
    ((mctsBackprop [(0, 0), (0, 0)] 1).getD 1 (0, 0) =
      (([((0 : ℚ), (0 : Int)), (0, 0)].getD 1 (0, 0)).1 + (-1) ^ 1 * ((1 : Int) : ℚ),
       (([((0 : ℚ), (0 : Int)), (0, 0)].getD 1 (0, 0)).2 + 1)) ∧
     (ismctsBackprop [(0, 0), (0, 0)] 1).getD 1 (0, 0) =
      (([((0 : ℚ), (0 : Int)), (0, 0)].getD 1 (0, 0)).1 + 1,
       ([((0 : ℚ), (0 : Int)), (0, 0)].getD 1 (0, 0)).2 + 1)) :=
  ⟨by decide, C6_backprop [(0, 0), (0, 0)] 1 1 1 (by decide)⟩
/-- The capture-restoration color check of `undo`: the recorded move claims
a capture (`move >> 12 != 1`) but the recorded eaten piece's color is not
one the side whose piece was eaten can have; the source aborts there. -/
def badEatenColor (s : GST) : Prop :=
  (s.history.getD (s.n_plies - 1) 0) / 4096 ≠ 1 ∧
  (if s.nowTurn ^^^ 1 = USER then
    getN s.color ((s.history.getD (s.n_plies - 1) 0) % 4096 / 256) ≠ -1 ∧
    getN s.color ((s.history.getD (s.n_plies - 1) 0) % 4096 / 256) ≠ -2 ∧
    getN s.color ((s.history.getD (s.n_plies - 1) 0) % 4096 / 256) ≠ -3
  else
    getN s.color ((s.history.getD (s.n_plies - 1) 0) % 4096 / 256) ≠ 1 ∧
    getN s.color ((s.history.getD (s.n_plies - 1) 0) % 4096 / 256) ≠ 2 ∧
    getN s.color ((s.history.getD (s.n_plies - 1) 0) % 4096 / 256) ≠ 3)

/-- C2 (amended): `undo` fails exactly when the history is empty
(`n_plies == 0`) or when the recorded capture's eaten-piece color is
impossible for the side it should belong to; after an escape-win it does
NOT fail — it returns normally, merely clearing the winner, the turn, the
ply count and the escape flag. -/
theorem C2_undo_failure (s : GST) :
    undo s = none ↔
      s.n_plies = 0 ∨ (s.is_escape = false ∧ badEatenColor s) := by
  unfold undo badEatenColor restore_eaten
  by_cases h0 : s.n_plies = 0
  · simp [h0]
  · rw [if_neg h0]
    by_cases hesc : s.is_escape
    · simp [hesc, h0]
    · simp only [hesc, if_false, Bool.false_eq_true]
      by_cases hck : (s.history.getD (s.n_plies - 1) 0) / 4096 ≠ 1
      · rw [if_pos hck]
        by_cases ht : s.nowTurn ^^^ 1 = USER
        · rw [if_pos ht, if_pos ht]
          split_ifs <;> simp_all
        · rw [if_neg ht, if_neg ht]
          split_ifs <;> simp_all
      · rw [if_neg hck]
        simp_all
/-- C2 counterexample: from `escapePre`, move `piece 4, Left` is an
escape-winning move, yet `undo` after it returns normally. -/
theorem C2_counterexample :
    escapeMove escapePre (4 * 16 + 1) = true ∧
    (do_move escapePre (4 * 16 + 1)).map GST.is_escape = some true ∧
    ((do_move escapePre (4 * 16 + 1)).bind undo).isSome = true := by
  decide
/-- C3 counterexample: at the 200-ply cap with the user-red bucket already
zero, `is_over` records the draw sentinel `-2`, not the side that the
zero bucket would award the game to. -/
theorem C3_counterexample :
    capAndBucketState.winner = -1 ∧ capAndBucketState.n_plies = 200 ∧
    getN capAndBucketState.piece_nums 0 = 0 ∧
    (is_over capAndBucketState).1 = true ∧
    (is_over capAndBucketState).2.winner = -2 := by
  decide

/-- C3 (amended): on a state with no winner set, `is_over` records the draw
sentinel exactly when the ply count has reached the 200-ply cap — the cap
takes priority over the piece-count buckets — and only below the cap does a
zero bucket make `is_over` record the corresponding side. -/
theorem C3_terminal_amended (s : GST) (hw : s.winner = -1) :
    ((is_over s).2.winner = -2 ↔ 200 ≤ s.n_plies) ∧
    (s.n_plies < 200 →
      ((getN s.piece_nums 0 = 0 ∨ getN s.piece_nums 3 = 0) →
        (is_over s).1 = true ∧ (is_over s).2.winner = (USER : Int)) ∧
      ((getN s.piece_nums 0 ≠ 0 ∧ getN s.piece_nums 3 ≠ 0) →
        (getN s.piece_nums 1 = 0 ∨ getN s.piece_nums 2 = 0) →
        (is_over s).1 = true ∧ (is_over s).2.winner = (ENEMY : Int)) ∧
      ((getN s.piece_nums 0 ≠ 0 ∧ getN s.piece_nums 3 ≠ 0 ∧
        getN s.piece_nums 1 ≠ 0 ∧ getN s.piece_nums 2 ≠ 0) →
        (is_over s).1 = false ∧ (is_over s).2.winner = -1)) := by
  unfold is_over
  split_ifs <;> simp_all [USER, ENEMY] <;> omega

theorem C3_terminal_amended_witness :
    capAndBucketState.winner = -1 ∧
    (((is_over capAndBucketState).2.winner = -2 ↔
        200 ≤ capAndBucketState.n_plies) ∧
     (capAndBucketState.n_plies < 200 →
       ((getN capAndBucketState.piece_nums 0 = 0 ∨
         getN capAndBucketState.piece_nums 3 = 0) →
         (is_over capAndBucketState).1 = true ∧
         (is_over capAndBucketState).2.winner = (USER : Int)) ∧
       ((getN capAndBucketState.piece_nums 0 ≠ 0 ∧
         getN capAndBucketState.piece_nums 3 ≠ 0) →
         (getN capAndBucketState.piece_nums 1 = 0 ∨
          getN capAndBucketState.piece_nums 2 = 0) →
         (is_over capAndBucketState).1 = true ∧
         (is_over capAndBucketState).2.winner = (ENEMY : Int)) ∧
       ((getN capAndBucketState.piece_nums 0 ≠ 0 ∧
         getN capAndBucketState.piece_nums 3 ≠ 0 ∧
         getN capAndBucketState.piece_nums 1 ≠ 0 ∧
         getN capAndBucketState.piece_nums 2 ≠ 0) →
         (is_over capAndBucketState).1 = false ∧
         (is_over capAndBucketState).2.winner = -1))) :=
  ⟨by decide, C3_terminal_amended capAndBucketState (by decide)⟩
/-- C4: `compute_board_weight` equals the arithmetic mean of `get_weight`
over exactly the pattern instances validated by `is_valid_pattern` — there
are exactly 61 of them (`TUPLE_NUM`) — and an all-zero weight table gives 0. -/
theorem C4_evaluator_mean (s : GST) (d : DATA) :
    validPatterns.card = 61 ∧
    compute_board_weight s d =
      (∑ x ∈ validPatterns, get_weight s x.1 x.2 d (feature_cache s)) /
        (validPatterns.card : ℚ) ∧
    compute_board_weight s zeroDATA = 0 := by
  have hcard : validPatterns.card = 61 := by decide
  have hzero : ∀ base sh cache, get_weight s base sh zeroDATA cache = 0 := by
    intro base sh cache
    unfold get_weight zeroDATA
    split_ifs <;> rfl
  have hsum : (∑ x ∈ validPatterns, get_weight s x.1 x.2 d (feature_cache s)) =
      ∑ p ∈ Finset.range 36,
        ((if is_valid_pattern p .s1x4 then get_weight s p .s1x4 d (feature_cache s) else 0) +
         (if is_valid_pattern p .s4x1 then get_weight s p .s4x1 d (feature_cache s) else 0) +
         (if is_valid_pattern p .s2x2 then get_weight s p .s2x2 d (feature_cache s) else 0)) := by
    unfold validPatterns
    rw [Finset.sum_filter, Finset.sum_product]
    refine Finset.sum_congr rfl fun p _ => ?_
    rw [show ({Shape.s1x4, Shape.s2x2, Shape.s4x1} : Finset Shape) =
      insert Shape.s1x4 (insert Shape.s2x2 {Shape.s4x1}) from rfl]
    rw [Finset.sum_insert (by decide), Finset.sum_insert (by decide),
      Finset.sum_singleton]
    ring
  refine ⟨hcard, ?_, ?_⟩
  · rw [hsum, hcard]
    unfold compute_board_weight
    norm_num
  · unfold compute_board_weight
    simp [hzero]
/-- C7 counterexample: the exploration constant is the literal `1.414`,
which is not exactly the square root of 2. -/
theorem C7_counterexample : EXPLORATION_PARAM ≠ Real.sqrt 2 := by
  intro h
  have h2 : Real.sqrt 2 ^ 2 = 2 := Real.sq_sqrt (by norm_num)
  rw [← h] at h2
  unfold EXPLORATION_PARAM at h2
  norm_num at h2

/-- C7 (amended): the exploration constant is `1.414` (an approximation of
√2, but not exactly √2), and for every node with positive visits and
positive parent visits `MCTS::calculateUCB` returns
`wins / visits + 1.414 * sqrt(ln(parentVisits) / visits)`. -/
theorem C7_ucb_amended :
    EXPLORATION_PARAM = 1.414 ∧
    ∀ (w : ℚ) (v p : Int), 0 < v → 0 < p →
      calculateUCB w v p =
        (((w / v : ℚ) + 1.414 * Real.sqrt (Real.log p / v) : ℝ) : EReal) := by
  refine ⟨rfl, fun w v p hv hp => ?_⟩
  unfold calculateUCB EXPLORATION_PARAM
  rw [if_neg (by omega)]

theorem C7_ucb_amended_witness :
    (0 : Int) < 1 ∧ (0 : Int) < 2 ∧
    calculateUCB 1 1 2 =
      ((((1 : ℚ) / ((1 : Int) : ℚ) : ℚ) +
        1.414 * Real.sqrt (Real.log ((2 : Int) : ℝ) / ((1 : Int) : ℝ)) : ℝ) : EReal) :=
  ⟨by decide, by decide, C7_ucb_amended.2 1 1 2 (by decide) (by decide)⟩
/-- C9 counterexample: with the enemy side captured as root player at the
start of `findBestMove`, the rollout still plays the enemy uniformly at
random (the epsilon-greedy side is hard-coded to `USER`), while the spec's
policy would have the root player play greedily above epsilon. -/
theorem C9_counterexample :
    simPolicy ENEMY (9 / 10) 5 7 199 = 5 ∧
    specSimPolicy ENEMY ENEMY (9 / 10) 5 7 199 = 7 ∧
    simPolicy ENEMY (9 / 10) 5 7 199 ≠
      specSimPolicy ENEMY ENEMY (9 / 10) 5 7 199 := by
  have heps : simEpsilon 199 = 1 / 10 := by
    unfold simEpsilon
    rw [max_eq_left (by norm_num)]
    norm_num
  have h1 : simPolicy ENEMY (9 / 10) 5 7 199 = 5 := by
    unfold simPolicy
    rw [if_neg (by simp [ENEMY, USER])]
  have h2 : specSimPolicy ENEMY ENEMY (9 / 10) 5 7 199 = 7 := by
    unfold specSimPolicy
    rw [if_pos rfl, heps, if_neg (by norm_num)]
  exact ⟨h1, h2, by rw [h1, h2]; decide⟩

/-- C9 (amended): the rollout epsilon at step k is
`max(0.1, 1 - k/200)`, the epsilon-greedy side is the fixed `USER` side
(player 0) — not the root player captured by `findBestMove`, which is used
only for the reward — every other side always plays the random candidate,
and the reward is 0 when the 200-step horizon expires on a live game and
otherwise +1 exactly when the winner is the captured root player, -1
otherwise. -/
theorem C9_policy_amended :
    (∀ k : Nat, simEpsilon k = max (1 / 10 : ℚ) (1 - (k : ℚ) / 200)) ∧
    (∀ (u : ℚ) (r g k : Nat),
      simPolicy USER u r g k = if u < simEpsilon k then r else g) ∧
    (∀ n : Nat, n ≠ USER → ∀ (u : ℚ) (r g k : Nat),
      simPolicy n u r g k = r) ∧
    (∀ (st : Nat) (w rp : Int), 200 ≤ st →
      simReward false st w rp = 0) ∧
    (∀ (ov : Bool) (st : Nat) (w rp : Int), (ov = true ∨ st < 200) →
      simReward ov st w rp = if w = rp then 1 else -1) := by
  refine ⟨?_, ?_, ?_, ?_, ?_⟩
  · intro k
    unfold simEpsilon
    norm_num
  · intro u r g k
    unfold simPolicy
    rw [if_pos rfl]
  · intro n hn u r g k
    unfold simPolicy
    rw [if_neg hn]
  · intro st w rp hst
    unfold simReward
    rw [if_pos (by simp [hst])]
  · intro ov st w rp h
    unfold simReward
    rw [if_neg (by
      rintro ⟨h1, h2⟩
      rcases h with h | h
      · rw [h] at h1
        simp at h1
      · omega)]

theorem C9_policy_amended_witness :
    (1 : Nat) ≠ USER ∧ simPolicy 1 (1 / 2) 5 7 3 = 5 ∧
    (200 : Nat) ≤ 200 ∧ simReward false 200 0 1 = 0 ∧
    ((true : Bool) = true ∨ (7 : Nat) < 200) ∧
    simReward true 7 1 1 = if (1 : Int) = 1 then 1 else -1 :=
  ⟨by decide, C9_policy_amended.2.2.1 1 (by decide) (1 / 2) 5 7 3,
   by decide, C9_policy_amended.2.2.2.1 200 0 1 (by decide),
   Or.inl rfl, C9_policy_amended.2.2.2.2 true 7 1 1 (Or.inl rfl)⟩
/-- The per-corner distance tests of `corner_bonus` compute exactly the
Manhattan distances to the assigned corner cell, for on-board cells. -/
theorem corner_bonus_eq_spec (assigned src dst : Int)
    (hs0 : 0 ≤ src) (hs1 : src < 36) (hd0 : 0 ≤ dst) (hd1 : dst < 36) :
    corner_bonus assigned src dst =
      if 0 ≤ assigned ∧ assigned ≤ 3 ∧
          specManhattan dst (specCorner assigned) <
            specManhattan src (specCorner assigned) then (1.01 : ℚ)
      else 1 := by
  have hsd := Int.tdiv_eq_ediv hs0 (by norm_num : (0:Int) ≤ 6)
  have hsm := Int.tmod_eq_emod hs0 (by norm_num : (0:Int) ≤ 6)
  have hdd := Int.tdiv_eq_ediv hd0 (by norm_num : (0:Int) ≤ 6)
  have hdm := Int.tmod_eq_emod hd0 (by norm_num : (0:Int) ≤ 6)
  unfold corner_bonus
  rw [hsd, hsm, hdd, hdm]
  by_cases h0 : assigned = 0
  · subst h0
    rw [show specCorner 0 = 0 from rfl,
      if_pos (show ((0:Int) ≠ -1) from by decide),
      if_pos (show ((0:Int) = 0) from rfl)]
    refine if_congr ?_ rfl rfl
    constructor
    · intro h
      refine ⟨by decide, by decide, ?_⟩
      simp only [specManhattan]
      omega
    · rintro ⟨-, -, h⟩
      simp only [specManhattan] at h
      omega
  · by_cases h1 : assigned = 1
    · subst h1
      rw [show specCorner 1 = 5 from rfl,
        if_pos (show ((1:Int) ≠ -1) from by decide),
        if_neg (show ¬((1:Int) = 0) from by decide),
        if_pos (show ((1:Int) = 1) from rfl)]
      refine if_congr ?_ rfl rfl
      constructor
      · intro h
        refine ⟨by decide, by decide, ?_⟩
        simp only [specManhattan]
        omega
      · rintro ⟨-, -, h⟩
        simp only [specManhattan] at h
        omega
    · by_cases h2 : assigned = 2
      · subst h2
        rw [show specCorner 2 = 30 from rfl,
          if_pos (show ((2:Int) ≠ -1) from by decide),
          if_neg (show ¬((2:Int) = 0) from by decide),
          if_neg (show ¬((2:Int) = 1) from by decide),
          if_pos (show ((2:Int) = 2) from rfl)]
        refine if_congr ?_ rfl rfl
        constructor
        · intro h
          refine ⟨by decide, by decide, ?_⟩
          simp only [specManhattan]
          omega
        · rintro ⟨-, -, h⟩
          simp only [specManhattan] at h
          omega
      · by_cases h3 : assigned = 3
        · subst h3
          rw [show specCorner 3 = 35 from rfl,
            if_pos (show ((3:Int) ≠ -1) from by decide),
            if_neg (show ¬((3:Int) = 0) from by decide),
            if_neg (show ¬((3:Int) = 1) from by decide),
            if_neg (show ¬((3:Int) = 2) from by decide),
            if_pos (show ((3:Int) = 3) from rfl)]
          refine if_congr ?_ rfl rfl
          constructor
          · intro h
            refine ⟨by decide, by decide, ?_⟩
            simp only [specManhattan]
            omega
          · rintro ⟨-, -, h⟩
            simp only [specManhattan] at h
            omega
        · by_cases hm1 : assigned = -1
          · subst hm1
            rw [if_neg (show ¬((-1:Int) ≠ -1) from by decide),
              if_neg (show ¬(0 ≤ (-1:Int) ∧ (-1:Int) ≤ 3 ∧
                specManhattan dst (specCorner (-1)) <
                  specManhattan src (specCorner (-1))) from by
                rintro ⟨h, -, -⟩
                exact absurd h (by decide))]
          · rw [if_pos hm1, if_neg h0, if_neg h1, if_neg h2, if_neg h3,
              if_neg (by rintro ⟨ha, hb, -⟩; omega)]
/-- C8 counterexample: enemy to move, the user (the mover's opponent) is
down to exactly one red piece, the move to cell 16 is non-capturing, and no
corner is assigned — the claim demands a 1.01 bonus, but `highest_weight`
leaves the weight untouched because it tests `piece_nums[2]` (the enemy-red
bucket, here 4) regardless of the side to move. -/
theorem C8_counterexample :
    enemyTurnState.nowTurn = ENEMY ∧
    getN enemyTurnState.piece_nums 0 = 1 ∧
    getI enemyTurnState.board 16 = 0 ∧
    getN enemyTurnState.piece_nums 2 = 4 ∧
    weight_bonus enemyTurnState (-1) 10 16 1 = 1 := by
  refine ⟨by decide, by decide, by decide, by decide, ?_⟩
  unfold weight_bonus corner_bonus
  rw [if_neg (show ¬((-1:Int) ≠ -1) from by decide),
    if_neg (show ¬(getN enemyTurnState.piece_nums 2 ≤ 1 ∧
      getI enemyTurnState.board 16 = 0) from by
      rintro ⟨h, -⟩
      revert h
      decide)]
  norm_num

/-- C8 (amended): the candidate weight is multiplied by 1.01 exactly when
the destination cell is empty and the enemy-red bucket `piece_nums[2]` is
at most 1 — independent of which side is to move — and, separately, by
1.01 exactly when the piece has an assigned corner and the move strictly
reduces its Manhattan distance to that corner. -/
theorem C8_bonus_amended (s : GST) (assigned src dst : Int) (w : ℚ)
    (hs0 : 0 ≤ src) (hs1 : src < 36) (hd0 : 0 ≤ dst) (hd1 : dst < 36) :
    weight_bonus s assigned src dst w =
      w * (if 0 ≤ assigned ∧ assigned ≤ 3 ∧
             specManhattan dst (specCorner assigned) <
               specManhattan src (specCorner assigned) then (1.01 : ℚ)
           else 1)
        * (if getN s.piece_nums 2 ≤ 1 ∧ getI s.board dst = 0 then (1.01 : ℚ)
           else 1) := by
  unfold weight_bonus
  rw [corner_bonus_eq_spec assigned src dst hs0 hs1 hd0 hd1]
  by_cases h : getN s.piece_nums 2 ≤ 1 ∧ getI s.board dst = 0
  · rw [if_pos h, if_pos h]
  · rw [if_neg h, if_neg h]
    ring

theorem C8_bonus_amended_witness :
    (0 : Int) ≤ 10 ∧ (10 : Int) < 36 ∧ (0 : Int) ≤ 16 ∧ (16 : Int) < 36 ∧
    weight_bonus enemyTurnState 0 10 16 1 =
      1 * (if 0 ≤ (0 : Int) ∧ (0 : Int) ≤ 3 ∧
             specManhattan 16 (specCorner 0) <
               specManhattan 10 (specCorner 0) then (1.01 : ℚ)
           else 1)
        * (if getN enemyTurnState.piece_nums 2 ≤ 1 ∧
             getI enemyTurnState.board 16 = 0 then (1.01 : ℚ)
           else 1) :=
  ⟨by decide, by decide, by decide, by decide,
   C8_bonus_amended enemyTurnState 0 10 16 1 (by decide) (by decide)
     (by decide) (by decide)⟩
/-- Soundness facts for every generated move: the decoded piece belongs to
the side to move and stands on the board, and the move is either a
well-formed escape (blue piece of the mover on one of its own exit cells)
or a well-formed orthogonal move onto an on-board cell not occupied by the
mover's side. -/
theorem gen_move_sound (s : GST) (m : Nat)
    (hturn : s.nowTurn < 2)
    (hpos : ∀ p, p < 16 → getN s.pos p = -1 ∨
      (0 ≤ getN s.pos p ∧ getN s.pos p < 36))
    (hm : m ∈ gen_all_move s) :
    m / 16 < 16 ∧ getN s.pos (m / 16) ≠ -1 ∧ 0 ≤ getN s.pos (m / 16) ∧
    getN s.pos (m / 16) < 36 ∧
    (s.nowTurn = 0 → m / 16 < 8) ∧ (s.nowTurn ≠ 0 → 8 ≤ m / 16) ∧
    ((escapeMove s m = true ∧
       (s.nowTurn = 0 → getN s.color (m / 16) = 2 ∧
         (getN s.pos (m / 16) = 0 ∨ getN s.pos (m / 16) = 5)) ∧
       (s.nowTurn ≠ 0 → getN s.color (m / 16) = -2 ∧
         (getN s.pos (m / 16) = 30 ∨ getN s.pos (m / 16) = 35))) ∨
     (escapeMove s m = false ∧ m % 16 < 4 ∧ dirVal (m % 16) ≠ 0 ∧
      0 ≤ getN s.pos (m / 16) + dirVal (m % 16) ∧
      getN s.pos (m / 16) + dirVal (m % 16) < 36 ∧
      (s.nowTurn = 0 →
        getI s.board (getN s.pos (m / 16) + dirVal (m % 16)) ≤ 0) ∧
      (s.nowTurn ≠ 0 →
        0 ≤ getI s.board (getN s.pos (m / 16) + dirVal (m % 16))))) := by
  obtain ⟨i, hi, hneg, hmem⟩ := mem_gen_all_move.1 hm
  by_cases ht : s.nowTurn = 0
  · rw [show (if s.nowTurn = ENEMY then 8 else 0) = 0 from by
      rw [if_neg]; rw [ht]; decide] at hneg hmem
    rw [Nat.add_zero] at hneg hmem
    have hpi := (hpos i (by omega)).resolve_left hneg
    obtain ⟨hl0, hl36⟩ := hpi
    have hconv := Int.tdiv_eq_ediv hl0 (by norm_num : (0:Int) ≤ 6)
    have hconvm := Int.tmod_eq_emod hl0 (by norm_num : (0:Int) ≤ 6)
    rcases (mem_gen_move_user ht).1 hmem with
      ⟨hr, hb, rfl⟩ | ⟨hr, hb, rfl⟩ | ⟨hr, hb, rfl⟩ | ⟨hr, hb, rfl⟩ |
      ⟨hc2, hloc, rfl⟩ | ⟨hc2, hloc, rfl⟩
    · -- Up: m = i * 16, dir 0
      rw [hconv] at hr
      have hp : i * 16 / 16 = i := by omega
      have hd : i * 16 % 16 = 0 := by omega
      rw [hp, hd]
      have hesc : escapeMove s (i * 16) = false := by
        unfold escapeMove
        rw [hp, hd, check_win_move_dir0, Bool.and_false]
      refine ⟨by omega, hneg, hl0, hl36, fun _ => by omega,
        fun h1 => by omega, Or.inr ⟨hesc, by omega, by decide, ?_, ?_,
          fun _ => ?_, fun h1 => by omega⟩⟩
      · show 0 ≤ getN s.pos i + dirVal 0
        rw [show dirVal 0 = -6 from rfl]
        omega
      · show getN s.pos i + dirVal 0 < 36
        rw [show dirVal 0 = -6 from rfl]
        omega
      · show getI s.board (getN s.pos i + dirVal 0) ≤ 0
        rw [show dirVal 0 = -6 from rfl,
          show getN s.pos i + -6 = getN s.pos i - 6 from by ring]
        exact hb
    · -- Down: m = i * 16 + 3
      rw [hconv] at hr
      have hp : (i * 16 + 3) / 16 = i := by omega
      have hd : (i * 16 + 3) % 16 = 3 := by omega
      rw [hp, hd]
      have hesc : escapeMove s (i * 16 + 3) = false := by
        unfold escapeMove
        rw [hp, hd, check_win_move_dir3, Bool.and_false]
      refine ⟨by omega, hneg, hl0, hl36, fun _ => by omega,
        fun h1 => by omega, Or.inr ⟨hesc, by omega, by decide, ?_, ?_,
          fun _ => ?_, fun h1 => by omega⟩⟩
      · show 0 ≤ getN s.pos i + dirVal 3
        rw [show dirVal 3 = 6 from rfl]
        omega
      · show getN s.pos i + dirVal 3 < 36
        rw [show dirVal 3 = 6 from rfl]
        omega
      · show getI s.board (getN s.pos i + dirVal 3) ≤ 0
        rw [show dirVal 3 = 6 from rfl]
        exact hb
    · -- Left: m = i * 16 + 1, col ≠ 0
      rw [hconvm] at hr
      have hp : (i * 16 + 1) / 16 = i := by omega
      have hd : (i * 16 + 1) % 16 = 1 := by omega
      rw [hp, hd]
      have hesc : escapeMove s (i * 16 + 1) = false := by
        unfold escapeMove
        rw [hp, hd]
        have : check_win_move (getN s.pos i) 1 = false := by
          rcases h01 : check_win_move (getN s.pos i) 1
          · rfl
          · exfalso
            rcases (check_win_move_dir1 (getN s.pos i)).1 h01 with h | h <;>
              · rw [h] at hr
                simp at hr
        rw [this, Bool.and_false]
      refine ⟨by omega, hneg, hl0, hl36, fun _ => by omega,
        fun h1 => by omega, Or.inr ⟨hesc, by omega, by decide, ?_, ?_,
          fun _ => ?_, fun h1 => by omega⟩⟩
      · show 0 ≤ getN s.pos i + dirVal 1
        rw [show dirVal 1 = -1 from rfl]
        omega
      · show getN s.pos i + dirVal 1 < 36
        rw [show dirVal 1 = -1 from rfl]
        omega
      · show getI s.board (getN s.pos i + dirVal 1) ≤ 0
        rw [show dirVal 1 = -1 from rfl,
          show getN s.pos i + -1 = getN s.pos i - 1 from by ring]
        exact hb
    · -- Right: m = i * 16 + 2, col ≠ 5
      rw [hconvm] at hr
      have hp : (i * 16 + 2) / 16 = i := by omega
      have hd : (i * 16 + 2) % 16 = 2 := by omega
      rw [hp, hd]
      have hesc : escapeMove s (i * 16 + 2) = false := by
        unfold escapeMove
        rw [hp, hd]
        have : check_win_move (getN s.pos i) 2 = false := by
          rcases h01 : check_win_move (getN s.pos i) 2
          · rfl
          · exfalso
            rcases (check_win_move_dir2 (getN s.pos i)).1 h01 with h | h <;>
              · rw [h] at hr
                simp at hr
        rw [this, Bool.and_false]
      refine ⟨by omega, hneg, hl0, hl36, fun _ => by omega,
        fun h1 => by omega, Or.inr ⟨hesc, by omega, by decide, ?_, ?_,
          fun _ => ?_, fun h1 => by omega⟩⟩
      · show 0 ≤ getN s.pos i + dirVal 2
        rw [show dirVal 2 = 1 from rfl]
        omega
      · show getN s.pos i + dirVal 2 < 36
        rw [show dirVal 2 = 1 from rfl]
        omega
      · show getI s.board (getN s.pos i + dirVal 2) ≤ 0
        rw [show dirVal 2 = 1 from rfl]
        exact hb
    · -- Escape at cell 0: m = i * 16 + 1
      have hp : (i * 16 + 1) / 16 = i := by omega
      have hd : (i * 16 + 1) % 16 = 1 := by omega
      rw [hp, hd]
      have hesc : escapeMove s (i * 16 + 1) = true := by
        unfold escapeMove
        rw [hp, hd, (check_win_move_dir1 _).2 (Or.inl hloc)]
        rw [hc2]
        decide
      exact ⟨by omega, hneg, hl0, hl36, fun _ => by omega,
        fun h1 => by omega,
        Or.inl ⟨hesc, fun _ => ⟨hc2, Or.inl hloc⟩, fun h1 => by omega⟩⟩
    · -- Escape at cell 5: m = i * 16 + 2
      have hp : (i * 16 + 2) / 16 = i := by omega
      have hd : (i * 16 + 2) % 16 = 2 := by omega
      rw [hp, hd]
      have hesc : escapeMove s (i * 16 + 2) = true := by
        unfold escapeMove
        rw [hp, hd, (check_win_move_dir2 _).2 (Or.inl hloc)]
        rw [hc2]
        decide
      exact ⟨by omega, hneg, hl0, hl36, fun _ => by omega,
        fun h1 => by omega,
        Or.inl ⟨hesc, fun _ => ⟨hc2, Or.inr hloc⟩, fun h1 => by omega⟩⟩
  · have htE : s.nowTurn = ENEMY := by
      rw [show ENEMY = 1 from rfl]
      omega
    rw [show (if s.nowTurn = ENEMY then 8 else 0) = 8 from by
      rw [if_pos htE]] at hneg hmem
    have hpi := (hpos (i + 8) (by omega)).resolve_left hneg
    obtain ⟨hl0, hl36⟩ := hpi
    have hconv := Int.tdiv_eq_ediv hl0 (by norm_num : (0:Int) ≤ 6)
    have hconvm := Int.tmod_eq_emod hl0 (by norm_num : (0:Int) ≤ 6)
    rcases (mem_gen_move_enemy (by rw [htE]; rfl)).1 hmem with
      ⟨hr, hb, rfl⟩ | ⟨hr, hb, rfl⟩ | ⟨hr, hb, rfl⟩ | ⟨hr, hb, rfl⟩ |
      ⟨hc2, hloc, rfl⟩ | ⟨hc2, hloc, rfl⟩
    · rw [hconv] at hr
      have hp : (i + 8) * 16 / 16 = i + 8 := by omega
      have hd : (i + 8) * 16 % 16 = 0 := by omega
      rw [hp, hd]
      have hesc : escapeMove s ((i + 8) * 16) = false := by
        unfold escapeMove
        rw [hp, hd, check_win_move_dir0, Bool.and_false]
      refine ⟨by omega, hneg, hl0, hl36, fun h0 => by omega,
        fun _ => by omega, Or.inr ⟨hesc, by omega, by decide, ?_, ?_,
          fun h0 => by omega, fun _ => ?_⟩⟩
      · show 0 ≤ getN s.pos (i + 8) + dirVal 0
        rw [show dirVal 0 = -6 from rfl]
        omega
      · show getN s.pos (i + 8) + dirVal 0 < 36
        rw [show dirVal 0 = -6 from rfl]
        omega
      · show 0 ≤ getI s.board (getN s.pos (i + 8) + dirVal 0)
        rw [show dirVal 0 = -6 from rfl,
          show getN s.pos (i + 8) + -6 = getN s.pos (i + 8) - 6 from by ring]
        exact hb
    · rw [hconv] at hr
      have hp : ((i + 8) * 16 + 3) / 16 = i + 8 := by omega
      have hd : ((i + 8) * 16 + 3) % 16 = 3 := by omega
      rw [hp, hd]
      have hesc : escapeMove s ((i + 8) * 16 + 3) = false := by
        unfold escapeMove
        rw [hp, hd, check_win_move_dir3, Bool.and_false]
      refine ⟨by omega, hneg, hl0, hl36, fun h0 => by omega,
        fun _ => by omega, Or.inr ⟨hesc, by omega, by decide, ?_, ?_,
          fun h0 => by omega, fun _ => ?_⟩⟩
      · show 0 ≤ getN s.pos (i + 8) + dirVal 3
        rw [show dirVal 3 = 6 from rfl]
        omega
      · show getN s.pos (i + 8) + dirVal 3 < 36
        rw [show dirVal 3 = 6 from rfl]
        omega
      · show 0 ≤ getI s.board (getN s.pos (i + 8) + dirVal 3)
        rw [show dirVal 3 = 6 from rfl]
        exact hb
    · rw [hconvm] at hr
      have hp : ((i + 8) * 16 + 1) / 16 = i + 8 := by omega
      have hd : ((i + 8) * 16 + 1) % 16 = 1 := by omega
      rw [hp, hd]
      have hesc : escapeMove s ((i + 8) * 16 + 1) = false := by
        unfold escapeMove
        rw [hp, hd]
        have : check_win_move (getN s.pos (i + 8)) 1 = false := by
          rcases h01 : check_win_move (getN s.pos (i + 8)) 1
          · rfl
          · exfalso
            rcases (check_win_move_dir1 _).1 h01 with h | h <;>
              · rw [h] at hr
                simp at hr
        rw [this, Bool.and_false]
      refine ⟨by omega, hneg, hl0, hl36, fun h0 => by omega,
        fun _ => by omega, Or.inr ⟨hesc, by omega, by decide, ?_, ?_,
          fun h0 => by omega, fun _ => ?_⟩⟩
      · show 0 ≤ getN s.pos (i + 8) + dirVal 1
        rw [show dirVal 1 = -1 from rfl]
        omega
      · show getN s.pos (i + 8) + dirVal 1 < 36
        rw [show dirVal 1 = -1 from rfl]
        omega
      · show 0 ≤ getI s.board (getN s.pos (i + 8) + dirVal 1)
        rw [show dirVal 1 = -1 from rfl,
          show getN s.pos (i + 8) + -1 = getN s.pos (i + 8) - 1 from by ring]
        exact hb
    · rw [hconvm] at hr
      have hp : ((i + 8) * 16 + 2) / 16 = i + 8 := by omega
      have hd : ((i + 8) * 16 + 2) % 16 = 2 := by omega
      rw [hp, hd]
      have hesc : escapeMove s ((i + 8) * 16 + 2) = false := by
        unfold escapeMove
        rw [hp, hd]
        have : check_win_move (getN s.pos (i + 8)) 2 = false := by
          rcases h01 : check_win_move (getN s.pos (i + 8)) 2
          · rfl
          · exfalso
            rcases (check_win_move_dir2 _).1 h01 with h | h <;>
              · rw [h] at hr
                simp at hr
        rw [this, Bool.and_false]
      refine ⟨by omega, hneg, hl0, hl36, fun h0 => by omega,
        fun _ => by omega, Or.inr ⟨hesc, by omega, by decide, ?_, ?_,
          fun h0 => by omega, fun _ => ?_⟩⟩
      · show 0 ≤ getN s.pos (i + 8) + dirVal 2
        rw [show dirVal 2 = 1 from rfl]
        omega
      · show getN s.pos (i + 8) + dirVal 2 < 36
        rw [show dirVal 2 = 1 from rfl]
        omega
      · show 0 ≤ getI s.board (getN s.pos (i + 8) + dirVal 2)
        rw [show dirVal 2 = 1 from rfl]
        exact hb
    · have hp : ((i + 8) * 16 + 1) / 16 = i + 8 := by omega
      have hd : ((i + 8) * 16 + 1) % 16 = 1 := by omega
      rw [hp, hd]
      have hesc : escapeMove s ((i + 8) * 16 + 1) = true := by
        unfold escapeMove
        rw [hp, hd, (check_win_move_dir1 _).2 (Or.inr hloc)]
        rw [hc2]
        decide
      exact ⟨by omega, hneg, hl0, hl36, fun h0 => by omega,
        fun _ => by omega,
        Or.inl ⟨hesc, fun h0 => by omega, fun _ => ⟨hc2, Or.inl hloc⟩⟩⟩
    · have hp : ((i + 8) * 16 + 2) / 16 = i + 8 := by omega
      have hd : ((i + 8) * 16 + 2) % 16 = 2 := by omega
      rw [hp, hd]
      have hesc : escapeMove s ((i + 8) * 16 + 2) = true := by
        unfold escapeMove
        rw [hp, hd, (check_win_move_dir2 _).2 (Or.inr hloc)]
        rw [hc2]
        decide
      exact ⟨by omega, hneg, hl0, hl36, fun h0 => by omega,
        fun _ => by omega,
        Or.inl ⟨hesc, fun h0 => by omega, fun _ => ⟨hc2, Or.inr hloc⟩⟩⟩
/-- C5: on a reachable state, no generated move targets a cell occupied by
the moving side (for the user all destinations have `board[dst] <= 0`, for
the enemy `>= 0`), and the escape-acting moves in the list belong exactly
to a blue piece of the mover standing on one of its own two exit cells
(0/5 for the user, 30/35 for the enemy). -/
theorem C5_legal_moves (s : GST) (hturn : s.nowTurn < 2)
    (hpos : ∀ p, p < 16 → getN s.pos p = -1 ∨
      (0 ≤ getN s.pos p ∧ getN s.pos p < 36))
    (m : Nat) (hm : m ∈ gen_all_move s) :
    (escapeMove s m = true →
      (s.nowTurn = 0 → m / 16 < 8 ∧ getN s.color (m / 16) = 2 ∧
        (getN s.pos (m / 16) = 0 ∨ getN s.pos (m / 16) = 5)) ∧
      (s.nowTurn = 1 → 8 ≤ m / 16 ∧ getN s.color (m / 16) = -2 ∧
        (getN s.pos (m / 16) = 30 ∨ getN s.pos (m / 16) = 35))) ∧
    (escapeMove s m = false →
      0 ≤ getN s.pos (m / 16) + dirVal (m % 16) ∧
      getN s.pos (m / 16) + dirVal (m % 16) < 36 ∧
      (s.nowTurn = 0 →
        getI s.board (getN s.pos (m / 16) + dirVal (m % 16)) ≤ 0) ∧
      (s.nowTurn = 1 →
        0 ≤ getI s.board (getN s.pos (m / 16) + dirVal (m % 16)))) := by
  obtain ⟨hp16, hne, hl0, hl36, hu, he, hdisj⟩ :=
    gen_move_sound s m hturn hpos hm
  rcases hdisj with ⟨hesc, hu2, he2⟩ | ⟨hesc, hd4, hdv, hb0, hb36, hsu, hse⟩
  · refine ⟨fun _ => ⟨fun h0 => ⟨hu h0, hu2 h0⟩,
      fun h1 => ⟨he (by omega), (he2 (by omega)).1, (he2 (by omega)).2⟩⟩,
      fun hf => ?_⟩
    rw [hesc] at hf
    cases hf
  · refine ⟨fun htr => ?_, fun _ => ⟨hb0, hb36, hsu, fun h1 => hse (by omega)⟩⟩
    rw [hesc] at htr
    cases htr

theorem C5_legal_moves_witness :
    initState.nowTurn < 2 ∧
    (∀ p, p < 16 → getN initState.pos p = -1 ∨
      (0 ≤ getN initState.pos p ∧ getN initState.pos p < 36)) ∧
    (0 : Nat) ∈ gen_all_move initState ∧
    ((escapeMove initState 0 = true →
      (initState.nowTurn = 0 → 0 / 16 < 8 ∧ getN initState.color (0 / 16) = 2 ∧
        (getN initState.pos (0 / 16) = 0 ∨ getN initState.pos (0 / 16) = 5)) ∧
      (initState.nowTurn = 1 → 8 ≤ 0 / 16 ∧ getN initState.color (0 / 16) = -2 ∧
        (getN initState.pos (0 / 16) = 30 ∨ getN initState.pos (0 / 16) = 35))) ∧
     (escapeMove initState 0 = false →
      0 ≤ getN initState.pos (0 / 16) + dirVal (0 % 16) ∧
      getN initState.pos (0 / 16) + dirVal (0 % 16) < 36 ∧
      (initState.nowTurn = 0 →
        getI initState.board (getN initState.pos (0 / 16) + dirVal (0 % 16)) ≤ 0) ∧
      (initState.nowTurn = 1 →
        0 ≤ getI initState.board (getN initState.pos (0 / 16) + dirVal (0 % 16))))) :=
  ⟨by decide, by decide, by decide,
   C5_legal_moves initState (by decide) (by decide) 0 (by decide)⟩

theorem getN_set_self (l : List Int) (i : Nat) (v : Int)
    (h : i < l.length) : getN (l.set i v) i = v :=
  getD_set_self l i v 0 h

theorem getN_set_ne (l : List Int) {i j : Nat} (hij : i ≠ j) (v : Int) :
    getN (l.set i v) j = getN l j :=
  getD_set_ne l hij v 0

theorem xor_one_one (n : Nat) : n ^^^ 1 ^^^ 1 = n := by
  simp [Nat.xor_assoc]

/-- Write/write/write-back/write-back round trip on two distinct cells:
`l[L] := a; l[D] := b; l[D] := c; l[L] := e` restores `l` when `c` and `e`
are the original contents. -/
theorem set_roundtrip (l : List Int) {L D : Nat} (hL : L < l.length)
    (hD : D < l.length) (hLD : L ≠ D) (a b c e : Int)
    (hc : c = l.getD D 0) (he : e = l.getD L 0) :
    (((l.set L a).set D b).set D c).set L e = l := by
  rw [List.set_set, List.set_comm _ _ _ (show D ≠ L from fun h => hLD h.symm),
    List.set_set, he, set_getD_self _ _ _ hL, hc, set_getD_self _ _ _ hD]

/-- Same round trip with the two cells touched in the mirrored order. -/
theorem set_roundtrip_mirror (l : List Int) {E P : Nat} (hE : E < l.length)
    (hP : P < l.length) (hEP : E ≠ P) (a b c e : Int)
    (hc : c = l.getD E 0) (he : e = l.getD P 0) :
    (((l.set E a).set P b).set E c).set P e = l := by
  rw [List.set_comm _ _ _ (show P ≠ E from fun h => hEP h.symm),
    List.set_set, List.set_set, hc, set_getD_self _ _ _ hE, he,
    set_getD_self _ _ _ hP]

/-- Double write to one cell followed by restoring the original content. -/
theorem set_roundtrip_one (l : List Int) {P : Nat} (hP : P < l.length)
    (a e : Int) (he : e = l.getD P 0) : (l.set P a).set P e = l := by
  rw [List.set_set, he, set_getD_self _ _ _ hP]
set_option maxHeartbeats 2000000 in
/-- C1 (amended): for a reachable state with no winner and a legal
non-escape move, `do_move` followed by `undo` restores the board, the
piece-identity map, the positions, the colors, the count buckets, the turn,
the ply count, the winner and the escape flag exactly; the `revealed` flags
are restored only for non-capturing moves — a captured piece's flag remains
`true` (undo never clears it). -/
theorem C1_roundtrip_amended (s : GST) (m : Nat)
    (hwf : WF s) (hwin : s.winner = -1) (hesc0 : s.is_escape = false)
    (hpl : s.n_plies < 1000) (hm : m ∈ gen_all_move s)
    (hne : escapeMove s m = false) :
    ∃ s2, (do_move s m).bind undo = some s2 ∧
      s2.board = s.board ∧ s2.piece_board = s.piece_board ∧
      s2.pos = s.pos ∧ s2.color = s.color ∧
      s2.piece_nums = s.piece_nums ∧ s2.nowTurn = s.nowTurn ∧
      s2.n_plies = s.n_plies ∧ s2.winner = s.winner ∧
      s2.is_escape = s.is_escape ∧
      (getI s.board (getN s.pos (m / 16) + dirVal (m % 16)) = 0 →
        s2.revealed = s.revealed) ∧
      (getI s.board (getN s.pos (m / 16) + dirVal (m % 16)) ≠ 0 →
        s2.revealed = s.revealed.set
          (getI s.piece_board
            (getN s.pos (m / 16) + dirVal (m % 16))).toNat true) := by
  obtain ⟨hLb, hLpb, hLpos, hLc, hLpn, hLr, hLh, hturn, hcu, hce, hposQ,
    hcellQ⟩ := hwf
  have hposB : ∀ p, p < 16 → getN s.pos p = -1 ∨
      (0 ≤ getN s.pos p ∧ getN s.pos p < 36) := by
    intro p hp
    rcases hposQ p hp with h | ⟨h1, h2, _, _⟩
    · exact Or.inl h
    · exact Or.inr ⟨h1, h2⟩
  obtain ⟨hp16, hne1, hl0, hl36, hu8, he8, hdisj⟩ :=
    gen_move_sound s m hturn hposB hm
  rcases hdisj with ⟨htr, -, -⟩ | ⟨-, hd4, hdv, hb0, hb36, hsu, hse⟩
  · rw [hne] at htr
    cases htr
  obtain ⟨hpl0, hpl36, hpbloc, hbloc⟩ :=
    (hposQ (m / 16) hp16).resolve_left hne1
  have hm256 : m < 256 := by omega
  have hLD : (getN s.pos (m / 16)).toNat ≠
      (getN s.pos (m / 16) + dirVal (m % 16)).toNat := by omega
  have hLlt : (getN s.pos (m / 16)).toNat < 36 := by omega
  have hDlt : (getN s.pos (m / 16) + dirVal (m % 16)).toNat < 36 := by omega
  have hx : s.nowTurn ^^^ 1 ^^^ 1 = s.nowTurn := xor_one_one _
  by_cases hcap : getI s.board (getN s.pos (m / 16) + dirVal (m % 16)) = 0
  · -- non-capturing move (either side)
    have hcs : capture_step s (getN s.pos (m / 16) + dirVal (m % 16)) m =
        some (s, m + 4096) := by
      unfold capture_step
      rw [if_neg (by omega), if_neg (by omega)]
    have hpbD : getN s.piece_board
        (getN s.pos (m / 16) + dirVal (m % 16)).toNat = -1 := by
      rcases hcellQ (getN s.pos (m / 16) + dirVal (m % 16)).toNat hDlt with
        ⟨h1, -⟩ | ⟨-, hlt16, hcolEq, -⟩
      · exact h1
      · exfalso
        have h0 : getN s.board (getN s.pos (m / 16) + dirVal (m % 16)).toNat
            = 0 := hcap
        rw [hcolEq] at h0
        rcases Nat.lt_or_ge (getN s.piece_board
            (getN s.pos (m / 16) + dirVal (m % 16)).toNat).toNat 8 with
          h8 | h8
        · rcases hcu _ h8 with h | h | h <;> omega
        · rcases hce _ (by omega) h8 with h | h | h <;> omega
    simp only [do_move]
    rw [hne]
    simp only [Bool.false_eq_true, if_false]
    rw [if_neg (show ¬(s.n_plies = 1000) from by omega), hcs]
    simp only [Option.map_some', Option.some_bind]
    simp only [move_piece, undo]
    rw [if_neg (show ¬(s.n_plies + 1 = 0) from by omega)]
    rw [hesc0]
    simp only [Bool.false_eq_true, if_false, Nat.add_sub_cancel]
    rw [getD_set_self s.history s.n_plies (m + 4096) 0 (by omega)]
    rw [show (m + 4096) % 256 / 16 = m / 16 from by omega,
      show (m + 4096) % 16 = m % 16 from by omega,
      show (m + 4096) / 4096 = 1 from by omega]
    rw [if_neg (show ¬((1:Nat) ≠ 1) from by omega)]
    rw [getN_set_self s.pos (m / 16)
      (getN s.pos (m / 16) + dirVal (m % 16)) (by omega)]
    rw [show getN s.pos (m / 16) + dirVal (m % 16) - dirVal (m % 16) =
      getN s.pos (m / 16) from by ring]
    rw [hx]
    simp only [Option.map_some']
    refine ⟨_, rfl, ?_, ?_, ?_, rfl, rfl, rfl, rfl, hwin.symm, rfl,
      fun _ => rfl, fun hc0 => absurd hcap hc0⟩
    · exact set_roundtrip s.board (by omega) (by omega) hLD 0
        (getN s.color (m / 16)) 0 (getN s.color (m / 16)) hcap.symm
        hbloc.symm
    · exact set_roundtrip s.piece_board (by omega) (by omega) hLD (-1)
        ((m / 16 : Nat) : Int) (-1) ((m / 16 : Nat) : Int) hpbD.symm
        hpbloc.symm
    · exact set_roundtrip_one s.pos (by omega)
        (getN s.pos (m / 16) + dirVal (m % 16)) (getN s.pos (m / 16)) rfl
  · -- capturing move
    obtain ⟨hpb0, hpb16, hcolEq, hposEq⟩ :=
      (hcellQ (getN s.pos (m / 16) + dirVal (m % 16)).toNat
        hDlt).resolve_left (by rintro ⟨-, h0⟩; exact hcap h0)
    set eN := (getN s.piece_board
      (getN s.pos (m / 16) + dirVal (m % 16)).toNat).toNat with heNdef
    have heN : getI s.piece_board
        (getN s.pos (m / 16) + dirVal (m % 16)) = (eN : Int) :=
      (Int.toNat_of_nonneg hpb0).symm
    have heN16 : eN < 16 := by omega
    have hcolE : getN s.board
        (getN s.pos (m / 16) + dirVal (m % 16)).toNat =
        getN s.color eN := hcolEq
    have hca : getI s.board (getN s.pos (m / 16) + dirVal (m % 16)) =
        getN s.color eN := hcolEq
    have hposE : getN s.pos eN =
        getN s.pos (m / 16) + dirVal (m % 16) := by
      rw [hposEq, Int.toNat_of_nonneg hb0]
    have hEP : eN ≠ m / 16 := by
      intro hq
      rw [hq] at hposE
      omega
    by_cases ht : s.nowTurn = 0
    · have hsign := hsu ht
      have hcaplt : getI s.board
          (getN s.pos (m / 16) + dirVal (m % 16)) < 0 := by omega
      have he8b : 8 ≤ eN := by
        by_contra h8
        rcases hcu eN (by omega) with h | h | h <;>
          · rw [h] at hca
            omega
      rcases hce eN (by omega) he8b with hc1 | hc1 | hc1
      · have hcs : capture_step s
            (getN s.pos (m / 16) + dirVal (m % 16)) m =
            some
                ({ s with
                    pos := s.pos.set eN (-1),
                    revealed := s.revealed.set eN true,
                    piece_nums :=
                      s.piece_nums.set 2 (getN s.piece_nums 2 - 1) },
                 m + 256 * eN) := by
          simp only [capture_step]
          rw [if_pos hcaplt, heN]
          simp only [Int.toNat_natCast]
          rw [if_pos hc1]
        simp only [do_move]
        rw [hne]
        simp only [Bool.false_eq_true, if_false]
        rw [if_neg (show ¬(s.n_plies = 1000) from by omega), hcs]
        simp only [Option.map_some', Option.some_bind]
        simp only [move_piece, undo]
        rw [getN_set_ne s.pos hEP (-1)]
        rw [if_neg (show ¬(s.n_plies + 1 = 0) from by omega)]
        rw [hesc0]
        simp only [Bool.false_eq_true, if_false, Nat.add_sub_cancel]
        rw [getD_set_self s.history s.n_plies (m + 256 * eN) 0 (by omega)]
        rw [show (m + 256 * eN) % 256 / 16 = m / 16 from by omega,
          show (m + 256 * eN) % 16 = m % 16 from by omega,
          show (m + 256 * eN) % 4096 / 256 = eN from by omega,
          show (m + 256 * eN) / 4096 = 0 from by omega]
        rw [if_pos (show (0:Nat) ≠ 1 from by omega)]
        simp only [restore_eaten]
        rw [hx, ht]
        rw [getN_set_self (s.pos.set eN (-1)) (m / 16)
          (getN s.pos (m / 16) + dirVal (m % 16))
          (by rw [List.length_set]; omega)]
        rw [show getN s.pos (m / 16) + dirVal (m % 16) - dirVal (m % 16) =
          getN s.pos (m / 16) from by ring]
        rw [if_pos (show (0:Nat) = USER from rfl)]
        rw [if_pos hc1]
        rw [getN_set_self s.piece_nums 2
          (getN s.piece_nums 2 - 1) (by omega)]
        rw [show getN s.piece_nums 2 - 1 + 1 = getN s.piece_nums 2 from
          by ring]
        simp only [Option.map_some']
        refine ⟨_, rfl, ?_, ?_, ?_, rfl, ?_, rfl, rfl, hwin.symm, rfl,
          fun h0 => absurd h0 hcap, fun _ => ?_⟩
        · exact set_roundtrip s.board (by omega) (by omega) hLD 0
            (getN s.color (m / 16)) (getN s.color eN) (getN s.color (m / 16))
            hcolE.symm hbloc.symm
        · exact set_roundtrip s.piece_board (by omega) (by omega) hLD (-1)
            ((m / 16 : Nat) : Int) ((eN : Nat) : Int) ((m / 16 : Nat) : Int)
            heN.symm hpbloc.symm
        · exact set_roundtrip_mirror s.pos (by omega) (by omega) hEP (-1)
            (getN s.pos (m / 16) + dirVal (m % 16))
            (getN s.pos (m / 16) + dirVal (m % 16)) (getN s.pos (m / 16))
            hposE.symm rfl
        · exact set_roundtrip_one s.piece_nums (by omega)
            (getN s.piece_nums 2 - 1) (getN s.piece_nums 2) rfl
        · rw [heN]
          simp only [Int.toNat_natCast]
      · have hcs : capture_step s
            (getN s.pos (m / 16) + dirVal (m % 16)) m =
            some
                ({ s with
                    pos := s.pos.set eN (-1),
                    revealed := s.revealed.set eN true,
                    piece_nums :=
                      s.piece_nums.set 3 (getN s.piece_nums 3 - 1) },
                 m + 256 * eN) := by
          simp only [capture_step]
          rw [if_pos hcaplt, heN]
          simp only [Int.toNat_natCast]
          rw [if_neg (show ¬(getN s.color eN = -1) from by omega)]
          rw [if_pos hc1]
        simp only [do_move]
        rw [hne]
        simp only [Bool.false_eq_true, if_false]
        rw [if_neg (show ¬(s.n_plies = 1000) from by omega), hcs]
        simp only [Option.map_some', Option.some_bind]
        simp only [move_piece, undo]
        rw [getN_set_ne s.pos hEP (-1)]
        rw [if_neg (show ¬(s.n_plies + 1 = 0) from by omega)]
        rw [hesc0]
        simp only [Bool.false_eq_true, if_false, Nat.add_sub_cancel]
        rw [getD_set_self s.history s.n_plies (m + 256 * eN) 0 (by omega)]
        rw [show (m + 256 * eN) % 256 / 16 = m / 16 from by omega,
          show (m + 256 * eN) % 16 = m % 16 from by omega,
          show (m + 256 * eN) % 4096 / 256 = eN from by omega,
          show (m + 256 * eN) / 4096 = 0 from by omega]
        rw [if_pos (show (0:Nat) ≠ 1 from by omega)]
        simp only [restore_eaten]
        rw [hx, ht]
        rw [getN_set_self (s.pos.set eN (-1)) (m / 16)
          (getN s.pos (m / 16) + dirVal (m % 16))
          (by rw [List.length_set]; omega)]
        rw [show getN s.pos (m / 16) + dirVal (m % 16) - dirVal (m % 16) =
          getN s.pos (m / 16) from by ring]
        rw [if_pos (show (0:Nat) = USER from rfl)]
        rw [if_neg (show ¬(getN s.color eN = -1) from by omega)]
        rw [if_pos hc1]
        rw [getN_set_self s.piece_nums 3
          (getN s.piece_nums 3 - 1) (by omega)]
        rw [show getN s.piece_nums 3 - 1 + 1 = getN s.piece_nums 3 from
          by ring]
        simp only [Option.map_some']
        refine ⟨_, rfl, ?_, ?_, ?_, rfl, ?_, rfl, rfl, hwin.symm, rfl,
          fun h0 => absurd h0 hcap, fun _ => ?_⟩
        · exact set_roundtrip s.board (by omega) (by omega) hLD 0
            (getN s.color (m / 16)) (getN s.color eN) (getN s.color (m / 16))
            hcolE.symm hbloc.symm
        · exact set_roundtrip s.piece_board (by omega) (by omega) hLD (-1)
            ((m / 16 : Nat) : Int) ((eN : Nat) : Int) ((m / 16 : Nat) : Int)
            heN.symm hpbloc.symm
        · exact set_roundtrip_mirror s.pos (by omega) (by omega) hEP (-1)
            (getN s.pos (m / 16) + dirVal (m % 16))
            (getN s.pos (m / 16) + dirVal (m % 16)) (getN s.pos (m / 16))
            hposE.symm rfl
        · exact set_roundtrip_one s.piece_nums (by omega)
            (getN s.piece_nums 3 - 1) (getN s.piece_nums 3) rfl
        · rw [heN]
          simp only [Int.toNat_natCast]
      · have hcs : capture_step s
            (getN s.pos (m / 16) + dirVal (m % 16)) m =
            some
                ({ s with
                    pos := s.pos.set eN (-1),
                    revealed := s.revealed.set eN true },
                 m + 256 * eN) := by
          simp only [capture_step]
          rw [if_pos hcaplt, heN]
          simp only [Int.toNat_natCast]
          rw [if_neg (show ¬(getN s.color eN = -1) from by omega)]
          rw [if_neg (show ¬(getN s.color eN = -2) from by omega)]
          rw [if_pos hc1]
        simp only [do_move]
        rw [hne]
        simp only [Bool.false_eq_true, if_false]
        rw [if_neg (show ¬(s.n_plies = 1000) from by omega), hcs]
        simp only [Option.map_some', Option.some_bind]
        simp only [move_piece, undo]
        rw [getN_set_ne s.pos hEP (-1)]
        rw [if_neg (show ¬(s.n_plies + 1 = 0) from by omega)]
        rw [hesc0]
        simp only [Bool.false_eq_true, if_false, Nat.add_sub_cancel]
        rw [getD_set_self s.history s.n_plies (m + 256 * eN) 0 (by omega)]
        rw [show (m + 256 * eN) % 256 / 16 = m / 16 from by omega,
          show (m + 256 * eN) % 16 = m % 16 from by omega,
          show (m + 256 * eN) % 4096 / 256 = eN from by omega,
          show (m + 256 * eN) / 4096 = 0 from by omega]
        rw [if_pos (show (0:Nat) ≠ 1 from by omega)]
        simp only [restore_eaten]
        rw [hx, ht]
        rw [getN_set_self (s.pos.set eN (-1)) (m / 16)
          (getN s.pos (m / 16) + dirVal (m % 16))
          (by rw [List.length_set]; omega)]
        rw [show getN s.pos (m / 16) + dirVal (m % 16) - dirVal (m % 16) =
          getN s.pos (m / 16) from by ring]
        rw [if_pos (show (0:Nat) = USER from rfl)]
        rw [if_neg (show ¬(getN s.color eN = -1) from by omega)]
        rw [if_neg (show ¬(getN s.color eN = -2) from by omega)]
        rw [if_pos hc1]
        simp only [Option.map_some']
        refine ⟨_, rfl, ?_, ?_, ?_, rfl, rfl, rfl, rfl, hwin.symm, rfl,
          fun h0 => absurd h0 hcap, fun _ => ?_⟩
        · exact set_roundtrip s.board (by omega) (by omega) hLD 0
            (getN s.color (m / 16)) (getN s.color eN) (getN s.color (m / 16))
            hcolE.symm hbloc.symm
        · exact set_roundtrip s.piece_board (by omega) (by omega) hLD (-1)
            ((m / 16 : Nat) : Int) ((eN : Nat) : Int) ((m / 16 : Nat) : Int)
            heN.symm hpbloc.symm
        · exact set_roundtrip_mirror s.pos (by omega) (by omega) hEP (-1)
            (getN s.pos (m / 16) + dirVal (m % 16))
            (getN s.pos (m / 16) + dirVal (m % 16)) (getN s.pos (m / 16))
            hposE.symm rfl
        · rw [heN]
          simp only [Int.toNat_natCast]
    · have ht1 : s.nowTurn = 1 := by omega
      have hsign := hse ht
      have hcapgt : 0 < getI s.board
          (getN s.pos (m / 16) + dirVal (m % 16)) := by omega
      have he8u : eN < 8 := by
        by_contra h8
        rcases hce eN (by omega) (by omega) with h | h | h <;>
          · rw [h] at hca
            omega
      rcases hcu eN he8u with hc1 | hc1 | hc1
      · have hcs : capture_step s
            (getN s.pos (m / 16) + dirVal (m % 16)) m =
            some
                ({ s with
                    pos := s.pos.set eN (-1),
                    revealed := s.revealed.set eN true,
                    piece_nums :=
                      s.piece_nums.set 0 (getN s.piece_nums 0 - 1) },
                 m + 256 * eN) := by
          simp only [capture_step]
          rw [if_neg (show ¬(getI s.board
              (getN s.pos (m / 16) + dirVal (m % 16)) < 0) from by omega),
            if_pos hcapgt, heN]
          simp only [Int.toNat_natCast]
          rw [if_pos hc1]
        simp only [do_move]
        rw [hne]
        simp only [Bool.false_eq_true, if_false]
        rw [if_neg (show ¬(s.n_plies = 1000) from by omega), hcs]
        simp only [Option.map_some', Option.some_bind]
        simp only [move_piece, undo]
        rw [getN_set_ne s.pos hEP (-1)]
        rw [if_neg (show ¬(s.n_plies + 1 = 0) from by omega)]
        rw [hesc0]
        simp only [Bool.false_eq_true, if_false, Nat.add_sub_cancel]
        rw [getD_set_self s.history s.n_plies (m + 256 * eN) 0 (by omega)]
        rw [show (m + 256 * eN) % 256 / 16 = m / 16 from by omega,
          show (m + 256 * eN) % 16 = m % 16 from by omega,
          show (m + 256 * eN) % 4096 / 256 = eN from by omega,
          show (m + 256 * eN) / 4096 = 0 from by omega]
        rw [if_pos (show (0:Nat) ≠ 1 from by omega)]
        simp only [restore_eaten]
        rw [hx, ht1]
        rw [getN_set_self (s.pos.set eN (-1)) (m / 16)
          (getN s.pos (m / 16) + dirVal (m % 16))
          (by rw [List.length_set]; omega)]
        rw [show getN s.pos (m / 16) + dirVal (m % 16) - dirVal (m % 16) =
          getN s.pos (m / 16) from by ring]
        rw [if_neg (show ¬((1:Nat) = USER) from by decide)]
        rw [if_pos hc1]
        rw [getN_set_self s.piece_nums 0
          (getN s.piece_nums 0 - 1) (by omega)]
        rw [show getN s.piece_nums 0 - 1 + 1 = getN s.piece_nums 0 from
          by ring]
        simp only [Option.map_some']
        refine ⟨_, rfl, ?_, ?_, ?_, rfl, ?_, rfl, rfl, hwin.symm, rfl,
          fun h0 => absurd h0 hcap, fun _ => ?_⟩
        · exact set_roundtrip s.board (by omega) (by omega) hLD 0
            (getN s.color (m / 16)) (getN s.color eN) (getN s.color (m / 16))
            hcolE.symm hbloc.symm
        · exact set_roundtrip s.piece_board (by omega) (by omega) hLD (-1)
            ((m / 16 : Nat) : Int) ((eN : Nat) : Int) ((m / 16 : Nat) : Int)
            heN.symm hpbloc.symm
        · exact set_roundtrip_mirror s.pos (by omega) (by omega) hEP (-1)
            (getN s.pos (m / 16) + dirVal (m % 16))
            (getN s.pos (m / 16) + dirVal (m % 16)) (getN s.pos (m / 16))
            hposE.symm rfl
        · exact set_roundtrip_one s.piece_nums (by omega)
            (getN s.piece_nums 0 - 1) (getN s.piece_nums 0) rfl
        · rw [heN]
          simp only [Int.toNat_natCast]
      · have hcs : capture_step s
            (getN s.pos (m / 16) + dirVal (m % 16)) m =
            some
                ({ s with
                    pos := s.pos.set eN (-1),
                    revealed := s.revealed.set eN true,
                    piece_nums :=
                      s.piece_nums.set 1 (getN s.piece_nums 1 - 1) },
                 m + 256 * eN) := by
          simp only [capture_step]
          rw [if_neg (show ¬(getI s.board
              (getN s.pos (m / 16) + dirVal (m % 16)) < 0) from by omega),
            if_pos hcapgt, heN]
          simp only [Int.toNat_natCast]
          rw [if_neg (show ¬(getN s.color eN = 1) from by omega)]
          rw [if_pos hc1]
        simp only [do_move]
        rw [hne]
        simp only [Bool.false_eq_true, if_false]
        rw [if_neg (show ¬(s.n_plies = 1000) from by omega), hcs]
        simp only [Option.map_some', Option.some_bind]
        simp only [move_piece, undo]
        rw [getN_set_ne s.pos hEP (-1)]
        rw [if_neg (show ¬(s.n_plies + 1 = 0) from by omega)]
        rw [hesc0]
        simp only [Bool.false_eq_true, if_false, Nat.add_sub_cancel]
        rw [getD_set_self s.history s.n_plies (m + 256 * eN) 0 (by omega)]
        rw [show (m + 256 * eN) % 256 / 16 = m / 16 from by omega,
          show (m + 256 * eN) % 16 = m % 16 from by omega,
          show (m + 256 * eN) % 4096 / 256 = eN from by omega,
          show (m + 256 * eN) / 4096 = 0 from by omega]
        rw [if_pos (show (0:Nat) ≠ 1 from by omega)]
        simp only [restore_eaten]
        rw [hx, ht1]
        rw [getN_set_self (s.pos.set eN (-1)) (m / 16)
          (getN s.pos (m / 16) + dirVal (m % 16))
          (by rw [List.length_set]; omega)]
        rw [show getN s.pos (m / 16) + dirVal (m % 16) - dirVal (m % 16) =
          getN s.pos (m / 16) from by ring]
        rw [if_neg (show ¬((1:Nat) = USER) from by decide)]
        rw [if_neg (show ¬(getN s.color eN = 1) from by omega)]
        rw [if_pos hc1]
        rw [getN_set_self s.piece_nums 1
          (getN s.piece_nums 1 - 1) (by omega)]
        rw [show getN s.piece_nums 1 - 1 + 1 = getN s.piece_nums 1 from
          by ring]
        simp only [Option.map_some']
        refine ⟨_, rfl, ?_, ?_, ?_, rfl, ?_, rfl, rfl, hwin.symm, rfl,
          fun h0 => absurd h0 hcap, fun _ => ?_⟩
        · exact set_roundtrip s.board (by omega) (by omega) hLD 0
            (getN s.color (m / 16)) (getN s.color eN) (getN s.color (m / 16))
            hcolE.symm hbloc.symm
        · exact set_roundtrip s.piece_board (by omega) (by omega) hLD (-1)
            ((m / 16 : Nat) : Int) ((eN : Nat) : Int) ((m / 16 : Nat) : Int)
            heN.symm hpbloc.symm
        · exact set_roundtrip_mirror s.pos (by omega) (by omega) hEP (-1)
            (getN s.pos (m / 16) + dirVal (m % 16))
            (getN s.pos (m / 16) + dirVal (m % 16)) (getN s.pos (m / 16))
            hposE.symm rfl
        · exact set_roundtrip_one s.piece_nums (by omega)
            (getN s.piece_nums 1 - 1) (getN s.piece_nums 1) rfl
        · rw [heN]
          simp only [Int.toNat_natCast]
      · have hcs : capture_step s
            (getN s.pos (m / 16) + dirVal (m % 16)) m =
            some
                ({ s with
                    pos := s.pos.set eN (-1),
                    revealed := s.revealed.set eN true },
                 m + 256 * eN) := by
          simp only [capture_step]
          rw [if_neg (show ¬(getI s.board
              (getN s.pos (m / 16) + dirVal (m % 16)) < 0) from by omega),
            if_pos hcapgt, heN]
          simp only [Int.toNat_natCast]
          rw [if_neg (show ¬(getN s.color eN = 1) from by omega)]
          rw [if_neg (show ¬(getN s.color eN = 2) from by omega)]
          rw [if_pos hc1]
        simp only [do_move]
        rw [hne]
        simp only [Bool.false_eq_true, if_false]
        rw [if_neg (show ¬(s.n_plies = 1000) from by omega), hcs]
        simp only [Option.map_some', Option.some_bind]
        simp only [move_piece, undo]
        rw [getN_set_ne s.pos hEP (-1)]
        rw [if_neg (show ¬(s.n_plies + 1 = 0) from by omega)]
        rw [hesc0]
        simp only [Bool.false_eq_true, if_false, Nat.add_sub_cancel]
        rw [getD_set_self s.history s.n_plies (m + 256 * eN) 0 (by omega)]
        rw [show (m + 256 * eN) % 256 / 16 = m / 16 from by omega,
          show (m + 256 * eN) % 16 = m % 16 from by omega,
          show (m + 256 * eN) % 4096 / 256 = eN from by omega,
          show (m + 256 * eN) / 4096 = 0 from by omega]
        rw [if_pos (show (0:Nat) ≠ 1 from by omega)]
        simp only [restore_eaten]
        rw [hx, ht1]
        rw [getN_set_self (s.pos.set eN (-1)) (m / 16)
          (getN s.pos (m / 16) + dirVal (m % 16))
          (by rw [List.length_set]; omega)]
        rw [show getN s.pos (m / 16) + dirVal (m % 16) - dirVal (m % 16) =
          getN s.pos (m / 16) from by ring]
        rw [if_neg (show ¬((1:Nat) = USER) from by decide)]
        rw [if_neg (show ¬(getN s.color eN = 1) from by omega)]
        rw [if_neg (show ¬(getN s.color eN = 2) from by omega)]
        rw [if_pos hc1]
        simp only [Option.map_some']
        refine ⟨_, rfl, ?_, ?_, ?_, rfl, rfl, rfl, rfl, hwin.symm, rfl,
          fun h0 => absurd h0 hcap, fun _ => ?_⟩
        · exact set_roundtrip s.board (by omega) (by omega) hLD 0
            (getN s.color (m / 16)) (getN s.color eN) (getN s.color (m / 16))
            hcolE.symm hbloc.symm
        · exact set_roundtrip s.piece_board (by omega) (by omega) hLD (-1)
            ((m / 16 : Nat) : Int) ((eN : Nat) : Int) ((m / 16 : Nat) : Int)
            heN.symm hpbloc.symm
        · exact set_roundtrip_mirror s.pos (by omega) (by omega) hEP (-1)
            (getN s.pos (m / 16) + dirVal (m % 16))
            (getN s.pos (m / 16) + dirVal (m % 16)) (getN s.pos (m / 16))
            hposE.symm rfl
        · rw [heN]
          simp only [Int.toNat_natCast]
set_option maxRecDepth 8000 in
/-- C1 counterexample: in a reachable position where the user's move
`piece 0, Up` captures the unrevealed enemy piece 11, applying the move and
undoing it restores the board but not the `revealed` flags — the captured
piece stays revealed. -/
theorem C1_counterexample :
    WF captureState ∧ captureState.winner = -1 ∧
    captureState.is_escape = false ∧ captureState.n_plies < 1000 ∧
    (0 : Nat) ∈ gen_all_move captureState ∧
    escapeMove captureState 0 = false ∧
    ((do_move captureState 0).bind undo).map GST.revealed ≠
      some captureState.revealed ∧
    ((do_move captureState 0).bind undo).map GST.board =
      some captureState.board := by
  refine ⟨by decide, by decide, by decide, by decide, by decide, by decide,
    by decide, by decide⟩

set_option maxRecDepth 8000 in
theorem C1_roundtrip_amended_witness :
    WF initState ∧ initState.winner = -1 ∧ initState.is_escape = false ∧
    initState.n_plies < 1000 ∧ (0 : Nat) ∈ gen_all_move initState ∧
    escapeMove initState 0 = false ∧
    (∃ s2, (do_move initState 0).bind undo = some s2 ∧
      s2.board = initState.board ∧ s2.piece_board = initState.piece_board ∧
      s2.pos = initState.pos ∧ s2.color = initState.color ∧
      s2.piece_nums = initState.piece_nums ∧
      s2.nowTurn = initState.nowTurn ∧ s2.n_plies = initState.n_plies ∧
      s2.winner = initState.winner ∧ s2.is_escape = initState.is_escape ∧
      (getI initState.board
          (getN initState.pos (0 / 16) + dirVal (0 % 16)) = 0 →
        s2.revealed = initState.revealed) ∧
      (getI initState.board
          (getN initState.pos (0 / 16) + dirVal (0 % 16)) ≠ 0 →
        s2.revealed = initState.revealed.set
          (getI initState.piece_board
            (getN initState.pos (0 / 16) + dirVal (0 % 16))).toNat true)) :=
  ⟨by decide, by decide, by decide, by decide, by decide, by decide,
   C1_roundtrip_amended initState 0 (by decide) (by decide) (by decide)
     (by decide) (by decide) (by decide)⟩
